import Mathlib

/-!
# ToFCamera: frame-geometry negotiation, frame-rate conversion, integration time

A shallow embedding of `TI3DToF/ToFCamera.cpp` (Voxel SDK, TI 3D ToF camera core).

Conventions of the embedding.

* A `bool`-returning member function that mutates the device becomes a function
  `Camera → ... → Option (Bool × Camera)`: `some (b, c)` is "returned `b`, leaving the
  camera in state `c`", `none` is "does not return" (an integer division by zero).
* A `const` getter with an out-parameter becomes a function into `Outcome α`.
* `uint` is a 32-bit unsigned integer, `int` a 32-bit signed integer and `long` a 64-bit
  signed integer (LP64); they are held in `Nat`/`Int` with the wrap-around written out.
-/

namespace ToFCamera

/-! ## Machine integers -/

/-- Reinterpret a natural number as a 32-bit two's-complement `int` (conversion of an
unsigned 32-bit product to `int`). -/
def toInt32 (n : Nat) : Int :=
  if n % 2 ^ 32 < 2 ^ 31 then ((n % 2 ^ 32 : Nat) : Int) else ((n % 2 ^ 32 : Nat) : Int) - 2 ^ 32

/-- Wrap an integer into the range of a 64-bit two's-complement `long`. -/
def toInt64 (z : Int) : Int :=
  if (z % 2 ^ 64).toNat < 2 ^ 63 then z % 2 ^ 64 else z % 2 ^ 64 - 2 ^ 64

/-- Conversion of a `long` to `uint`: reduction modulo 2^32. -/
def toUInt32 (z : Int) : Nat :=
  (z % 2 ^ 32).toNat

/-! ## Data model -/

/-- The class `FrameSize`: `width`, `height` (32-bit unsigned fields). -/
structure FrameSize where
  width : Nat
  height : Nat
  deriving DecidableEq, Repr

/-- The class `FrameRate`: `numerator`, `denominator` (32-bit unsigned fields). -/
structure FrameRate where
  numerator : Nat
  denominator : Nat
  deriving DecidableEq, Repr

/-- The class `RegionOfInterest`: a `FrameSize` with an origin `x`, `y`. -/
structure RegionOfInterest where
  x : Nat
  y : Nat
  width : Nat
  height : Nat
  deriving DecidableEq, Repr

/-- The class `SupportedVideoMode`: one entry of the device-reported catalogue. -/
structure SupportedVideoMode where
  frameSize : FrameSize
  frameRate : FrameRate
  bytesPerPixel : Nat
  deriving DecidableEq, Repr

/-- Line 202 of `_setFrameSize` and line 423 of `_getMaximumFrameRate`:
`int area = toSet.height*toSet.width`, a 32-bit unsigned product converted to `int`. -/
def areaOf (toSet : FrameSize) : Int :=
  toInt32 (toSet.height * toSet.width)

/-- The named registers the source reads and writes. -/
inductive Reg where
  | INTG_DUTY_CYCLE
  | INTG_DUTY_CYCLE_SET_FAILED
  | PIX_CNT_MAX
  | PIX_CNT_MAX_SET_FAILED
  | QUAD_CNT_MAX
  | SUBFRAME_CNT_MAX
  | BIN_ROW_COUNT
  | BIN_COLUMN_COUNT
  | BIN_ROWS_TO_MERGE
  | BIN_COLS_TO_MERGE
  | BINNING_EN
  | PIXEL_DATA_SIZE
  | OP_DATA_ARRANGE_MODE
  | SOFTWARE_RESET
  deriving DecidableEq, Repr

/-- A write issued to the device: a register write, an ROI write (`_setROI`) or a streamer
frame-size update (`_setStreamerFrameSize`). A write is recorded when it is issued, whether
or not the device accepts it. -/
inductive Write where
  | register (r : Reg) (v : Nat)
  | roi (r : RegionOfInterest)
  | streamer (s : FrameSize)
  deriving DecidableEq, Repr

/-- Outcome of a getter: `ok a` is "returned true with the out-parameter set to `a`",
`failed` is "returned false, out-parameter not assigned", `undefined` is "does not return"
(integer division by zero). -/
inductive Outcome (α : Type) where
  | ok (a : α)
  | failed
  | undefined
  deriving DecidableEq, Repr

/-- The camera as seen by `ToFCamera`: the streaming flag, the register file with the
per-register success of reads and writes, the answers of the chip-specific virtual members,
and the list of writes issued so far. -/
structure Camera where
  running : Bool
  value : Reg → Nat
  readOk : Reg → Bool
  writeOk : Reg → Bool
  maximumFrameSize : Option FrameSize
  roi : RegionOfInterest
  roiReadOk : Bool
  roiWriteOk : Bool
  supportedVideoModes : Option (List SupportedVideoMode)
  systemClockFrequency : Option Nat
  streamerOk : Bool
  streamerFrameSize : Option FrameSize
  issued : List Write

/-! ## The register interface and the chip-specific members -/

/-- Modelled from the spec: `isRunning()` of the base class is missing; it reports the
streaming state. -/
def isRunning (c : Camera) : Bool :=
  c.running

/-- Modelled from the spec: `_get(name, value)` of the base class is missing; a read of a
named register either fails or yields the stored value, and changes nothing. -/
def _get (c : Camera) (r : Reg) : Option Nat :=
  if c.readOk r then some (c.value r) else none

/-- Modelled from the spec: `_set(name, value)` of the base class is missing; a write is
issued, and either fails without side effect on the registers or stores the value. -/
def _set (c : Camera) (r : Reg) (v : Nat) : Bool × Camera :=
  if c.writeOk r then
    (true, { c with value := fun x => if x = r then v else c.value x,
                    issued := c.issued ++ [Write.register r v] })
  else
    (false, { c with issued := c.issued ++ [Write.register r v] })

/-- Modelled from the spec: `_getMaximumFrameSize` is a chip-specific member missing from
the sources; it yields the full sensor size or fails. -/
def _getMaximumFrameSize (c : Camera) : Option FrameSize :=
  c.maximumFrameSize

/-- Modelled from the spec: `_getROI` is a chip-specific member missing from the sources;
it yields the current region of interest or fails. -/
def _getROI (c : Camera) : Option RegionOfInterest :=
  if c.roiReadOk then some c.roi else none

/-- Modelled from the spec: `_setROI` is a chip-specific member missing from the sources;
it issues an ROI write, which either fails or commits the region of interest. -/
def _setROI (c : Camera) (roi : RegionOfInterest) : Bool × Camera :=
  if c.roiWriteOk then
    (true, { c with roi := roi, issued := c.issued ++ [Write.roi roi] })
  else
    (false, { c with issued := c.issued ++ [Write.roi roi] })

/-- Modelled from the spec: `_getSupportedVideoModes` is a chip-specific member missing
from the sources; it yields the catalogue of supported modes or fails. -/
def _getSupportedVideoModes (c : Camera) : Option (List SupportedVideoMode) :=
  c.supportedVideoModes

/-- Modelled from the spec: `_getSystemClockFrequency` is a chip-specific member missing
from the sources; it yields the clock frequency or fails. -/
def _getSystemClockFrequency (c : Camera) : Option Nat :=
  c.systemClockFrequency

/-- Modelled from the spec: `_setStreamerFrameSize` is a chip-specific member missing from
the sources; it propagates the frame size to the streaming configuration, or fails. -/
def _setStreamerFrameSize (c : Camera) (s : FrameSize) : Bool × Camera :=
  if c.streamerOk then
    (true, { c with streamerFrameSize := some s, issued := c.issued ++ [Write.streamer s] })
  else
    (false, { c with issued := c.issued ++ [Write.streamer s] })

/-- Modelled from the spec: `gcd(uint, uint)` of the SDK's common library is missing; it is
the greatest common divisor. -/
def gcd (n m : Nat) : Nat :=
  Nat.gcd n m

/-! ## Bytes per pixel and binning -/

/-- `ToFCamera::_getBytesPerPixel`: read `PIXEL_DATA_SIZE` as `int` and convert to `uint`
(the conversion keeps the 32-bit pattern). -/
def _getBytesPerPixel (c : Camera) : Option Nat :=
  match _get c Reg.PIXEL_DATA_SIZE with
  | none => none
  | some b => some (b % 2 ^ 32)

/-- `ToFCamera::_setBinning`: five register writes joined by short-circuit `||`; the first
failing write ends the sequence. -/
def _setBinning (c : Camera) (rowsToMerge columnsToMerge : Nat) (frameSize : FrameSize) :
    Bool × Camera :=
  match _set c Reg.BIN_ROWS_TO_MERGE rowsToMerge with
  | (false, c1) => (false, c1)
  | (true, c1) =>
    match _set c1 Reg.BIN_COLS_TO_MERGE columnsToMerge with
    | (false, c2) => (false, c2)
    | (true, c2) =>
      match _set c2 Reg.BIN_ROW_COUNT frameSize.height with
      | (false, c3) => (false, c3)
      | (true, c3) =>
        match _set c3 Reg.BIN_COLUMN_COUNT frameSize.width with
        | (false, c4) => (false, c4)
        | (true, c4) =>
          match _set c4 Reg.BINNING_EN 1 with
          | (false, c5) => (false, c5)
          | (true, c5) => (true, c5)

/-- `ToFCamera::_getFrameSize`: width from `BIN_COLUMN_COUNT`, height from `BIN_ROW_COUNT`. -/
def _getFrameSize (c : Camera) : Outcome FrameSize :=
  match _get c Reg.BIN_ROW_COUNT with
  | none => Outcome.failed
  | some binRowCount =>
    match _get c Reg.BIN_COLUMN_COUNT with
    | none => Outcome.failed
    | some binColumnCount => Outcome.ok { width := binColumnCount, height := binRowCount }

/-- `ToFCamera::_getBinning`: `(rowsToMerge, columnsToMerge)`; `(1, 1)` when `BINNING_EN`
reads false, without reading the merge-factor registers. -/
def _getBinning (c : Camera) : Outcome (Nat × Nat) :=
  match _get c Reg.BINNING_EN with
  | none => Outcome.failed
  | some binningEnabled =>
    if binningEnabled = 0 then Outcome.ok (1, 1)
    else
      match _get c Reg.BIN_ROWS_TO_MERGE with
      | none => Outcome.failed
      | some rowsToMerge =>
        match _get c Reg.BIN_COLS_TO_MERGE with
        | none => Outcome.failed
        | some columnsToMerge => Outcome.ok (rowsToMerge, columnsToMerge)

/-! ## Maximum frame rate for a frame size -/

/-- Lines 431-433 of `_getMaximumFrameRate`: the score of one catalogue entry. -/
def scoreMin (bytesPerPixel : Nat) (forFrameSize : FrameSize) (area : Int)
    (a : SupportedVideoMode) : Int :=
  if bytesPerPixel ≠ a.bytesPerPixel ∨ toInt32 (a.frameSize.width * a.frameSize.height) < area
      ∨ a.frameSize.width < forFrameSize.width ∨ a.frameSize.height < forFrameSize.height then 0
  else toInt32 (a.frameSize.width * a.frameSize.height)

/-- Lines 427-440 of `_getMaximumFrameRate`: the scan over the catalogue from index `i` on,
carrying `(minScore, index)`; an entry replaces the running best only on a strictly smaller
score. -/
def scanMin (bytesPerPixel : Nat) (forFrameSize : FrameSize) (area : Int) :
    List SupportedVideoMode → Nat → Int × Int → Int × Int
  | [], _, st => st
  | a :: rest, i, (minScore, index) =>
    if scoreMin bytesPerPixel forFrameSize area a < minScore then
      scanMin bytesPerPixel forFrameSize area rest (i + 1)
        (scoreMin bytesPerPixel forFrameSize area a, (i : Int))
    else
      scanMin bytesPerPixel forFrameSize area rest (i + 1) (minScore, index)

/-- `ToFCamera::_getMaximumFrameRate`: `minScore` starts at 0 and `index` at -1
(`IndexType` taken as a signed type, as the test `index < 0` supposes). -/
def _getMaximumFrameRate (c : Camera) (forFrameSize : FrameSize) : Outcome FrameRate :=
  match _getSupportedVideoModes c with
  | none => Outcome.failed
  | some supportedVideoModes =>
    match _getBytesPerPixel c with
    | none => Outcome.failed
    | some bytesPerPixel =>
      if supportedVideoModes.length > 0 then
        let st := scanMin bytesPerPixel forFrameSize (areaOf forFrameSize)
          supportedVideoModes 0 (0, -1)
        if st.2 < 0 then Outcome.failed
        else
          match supportedVideoModes.get? st.2.toNat with
          | some m => Outcome.ok m.frameRate
          | none => Outcome.undefined
      else Outcome.failed

/-! ## Frame rate and the pixel counter -/

/-- `ToFCamera::_getFrameRate`: numerator and denominator are 32-bit unsigned products,
both divided by their gcd (a zero gcd is a division by zero). -/
def _getFrameRate (c : Camera) : Outcome FrameRate :=
  match _get c Reg.PIX_CNT_MAX_SET_FAILED with
  | none => Outcome.failed
  | some pixCountSetFailed =>
    if pixCountSetFailed ≠ 0 then Outcome.failed
    else
      match _get c Reg.PIX_CNT_MAX with
      | none => Outcome.failed
      | some pixCount =>
        match _get c Reg.QUAD_CNT_MAX with
        | none => Outcome.failed
        | some quadCount =>
          match _get c Reg.SUBFRAME_CNT_MAX with
          | none => Outcome.failed
          | some subFrameCount =>
            match _getSystemClockFrequency c with
            | none => Outcome.failed
            | some sysClkFrequency =>
              let numerator := (sysClkFrequency * 1000000) % 2 ^ 32
              let denominator := ((pixCount * quadCount) % 2 ^ 32 * subFrameCount) % 2 ^ 32
              let g := gcd numerator denominator
              if g = 0 then Outcome.undefined
              else Outcome.ok { numerator := numerator / g, denominator := denominator / g }

/-- Line 123 of `_setFrameRate`: the pixel count, computed in `long` (64-bit, products
wrapping) with truncating division and converted to `uint`; `none` when the division is
undefined (zero divisor, or the one overflowing quotient). -/
def pixCountFor (r : FrameRate) (quadCount subFrameCount sysClkFrequency : Nat) : Option Nat :=
  let dividend := toInt64 (toInt64 ((r.denominator : Int) * sysClkFrequency) * 1000000)
  let divisor := toInt64 (toInt64 ((quadCount : Int) * subFrameCount) * r.numerator)
  if divisor = 0 ∨ (dividend = -2 ^ 63 ∧ divisor = -1) then none
  else some (toUInt32 (Int.tdiv dividend divisor))

/-- `ToFCamera::_setFrameRate`. -/
def _setFrameRate (c : Camera) (r : FrameRate) : Option (Bool × Camera) :=
  match _get c Reg.QUAD_CNT_MAX with
  | none => some (false, c)
  | some quadCount =>
    match _get c Reg.SUBFRAME_CNT_MAX with
    | none => some (false, c)
    | some subFrameCount =>
      match _getSystemClockFrequency c with
      | none => some (false, c)
      | some sysClkFrequency =>
        match pixCountFor r quadCount subFrameCount sysClkFrequency with
        | none => none
        | some pixCount =>
          match _set c Reg.PIX_CNT_MAX pixCount with
          | (false, c1) => some (false, c1)
          | (true, c1) =>
            match _get c1 Reg.PIX_CNT_MAX_SET_FAILED with
            | none => some (false, c1)
            | some pixCountSetFailed =>
              if pixCountSetFailed ≠ 0 then some (false, c1) else some (true, c1)

/-! ## Integration time (a derived parameter)

A finite `float` (IEEE binary32) is held as the integer count of its units of 2^-149, the
spacing of the smallest binary32 values: every finite binary32 value is such a multiple.
Arithmetic on `float` rounds to nearest, ties to even. -/

/-- A finite binary32 value, as a count of units of 2^-149. -/
abbrev Binary32 := Int

/-- The binary32 value of a small integer (exact below 2^24). -/
def Binary32.ofNat (n : Nat) : Binary32 :=
  (n : Int) * 2 ^ 149

/-- Halving count: `log2Fuel fuel n` is the floor of the binary logarithm of `n` when
`fuel` is at least that logarithm. -/
def log2Fuel : Nat → Nat → Nat
  | 0, _ => 0
  | fuel + 1, n => if n < 2 then 0 else log2Fuel fuel (n / 2) + 1

/-- Floor of the binary logarithm (0 at 0). -/
def floorLog2 (n : Nat) : Nat :=
  log2Fuel n n

/-- The binary32 value nearest to the non-negative rational `p / q` counted in units of
2^-149 (ties to even): below 2^24 units every integer count is a binary32 value, above
the spacing is `2 ^ (floorLog2 t - 23)`. -/
def roundBinary32 (p q : Nat) : Nat :=
  let t := p / q
  let s := if t < 2 ^ 24 then 0 else floorLog2 t - 23
  let d := q * 2 ^ s
  let m := p / d
  let r := p % d
  if 2 * r < d then m * 2 ^ s
  else if 2 * r > d then (m + 1) * 2 ^ s
  else if m % 2 = 0 then m * 2 ^ s
  else (m + 1) * 2 ^ s

namespace IntegrationTimeParameter

/-- Modelled from the spec: `validate` of the parameter base class is missing; the value
must lie in the declared range, `lowerLimit = 0` to `upperLimit = 100` (constructor,
line 22). -/
def validate (value : Binary32) : Bool :=
  decide (0 ≤ value ∧ value ≤ Binary32.ofNat 100)

/-- Line 37 of `IntegrationTimeParameter::get`: `integrationDutyCycle*100/63` is a `uint`
product and a `uint` division; the quotient is then converted to `float`. -/
def toPercent (integrationDutyCycle : Nat) : Binary32 :=
  (roundBinary32 ((integrationDutyCycle * 100 % 2 ^ 32 / 63) * 2 ^ 149) 1 : Nat)

/-- `IntegrationTimeParameter::get`. -/
def get (c : Camera) (_refresh : Bool) : Outcome Binary32 :=
  match _get c Reg.INTG_DUTY_CYCLE with
  | none => Outcome.failed
  | some integrationDutyCycle =>
    match _get c Reg.INTG_DUTY_CYCLE_SET_FAILED with
    | none => Outcome.failed
    | some integrationDutyCycleSetFailed =>
      if integrationDutyCycleSetFailed ≠ 0 then Outcome.failed
      else
        let v := toPercent integrationDutyCycle
        let v := if v > Binary32.ofNat 100 then Binary32.ofNat 100 else v
        let v := if v < 0 then 0 else v
        Outcome.ok v

/-- Lines 51-53 of `IntegrationTimeParameter::set`: `(value/100)*63` in `float`, truncated
to `uint`, capped at 63. -/
def toDutyCycle (value : Binary32) : Nat :=
  let quotient := roundBinary32 value.toNat (100 : Nat)
  let product := roundBinary32 (quotient * 63) 1
  let integrationDutyCycle := product / 2 ^ 149
  if integrationDutyCycle > 63 then 63 else integrationDutyCycle

/-- `IntegrationTimeParameter::set`. -/
def set (c : Camera) (value : Binary32) : Bool × Camera :=
  if !validate value then (false, c)
  else
    match _set c Reg.INTG_DUTY_CYCLE (toDutyCycle value) with
    | (false, c1) => (false, c1)
    | (true, c1) =>
      match _get c1 Reg.INTG_DUTY_CYCLE_SET_FAILED with
      | none => (false, c1)
      | some integrationDutyCycleSetFailed =>
        if integrationDutyCycleSetFailed ≠ 0 then (false, c1) else (true, c1)

end IntegrationTimeParameter

/-! ## Frame-size negotiation -/

/-- Lines 187-188 of `_setFrameSize`: clamp the desired size to the working ROI. -/
def clampToROI (s : FrameSize) (roi : RegionOfInterest) : FrameSize :=
  { width := if s.width ≤ roi.width then s.width else roi.width,
    height := if s.height ≤ roi.height then s.height else roi.height }

/-- Lines 210-211 of `_setFrameSize`: the score of one catalogue entry. The product is a
32-bit unsigned product converted to `int`; `area` is the `int` of line 202. -/
def scoreA (bytesPerPixel : Nat) (toSet : FrameSize) (area : Int) (a : SupportedVideoMode) :
    Int :=
  if bytesPerPixel ≠ a.bytesPerPixel ∨ toInt32 (a.frameSize.width * a.frameSize.height) > area
      ∨ a.frameSize.width > toSet.width ∨ a.frameSize.height > toSet.height then 0
  else toInt32 (a.frameSize.width * a.frameSize.height)

/-- Lines 206-218 of `_setFrameSize`: the scan over the catalogue from index `i` on, carrying
`(maxScore, index)`; an entry replaces the running best only on a strictly greater score. -/
def scanModes (bytesPerPixel : Nat) (toSet : FrameSize) (area : Int) :
    List SupportedVideoMode → Nat → Int × Int → Int × Int
  | [], _, st => st
  | a :: rest, i, (maxScore, index) =>
    if scoreA bytesPerPixel toSet area a > maxScore then
      scanModes bytesPerPixel toSet area rest (i + 1) (scoreA bytesPerPixel toSet area a, (i : Int))
    else
      scanModes bytesPerPixel toSet area rest (i + 1) (maxScore, index)

/-- Lines 200-226 of `_setFrameSize`: the frame size to set. With an empty catalogue the
clamped size is kept; otherwise `index` starts at -1 (`IndexType`, whose declaration is
missing, is taken as a signed type, as the test `index < 0` supposes) and the result is
`failed` when no entry replaced it. -/
def nearestFrameSize (bytesPerPixel : Nat) (toSet : FrameSize)
    (supportedVideoModes : List SupportedVideoMode) : Outcome FrameSize :=
  if supportedVideoModes.length > 0 then
    let st := scanModes bytesPerPixel toSet (areaOf toSet) supportedVideoModes 0 (0, -1)
    if st.2 < 0 then Outcome.failed
    else
      match supportedVideoModes.get? st.2.toNat with
      | some m => Outcome.ok m.frameSize
      | none => Outcome.undefined
  else Outcome.ok toSet

/-- Lines 185-244 of `_setFrameSize`, from the working ROI on: clamp, query catalogue and
bytes per pixel, choose the size, compute the binning (`uint` divisions) and commit. -/
def _setFrameSizeWithROI (c : Camera) (s : FrameSize) (roi : RegionOfInterest) :
    Option (Bool × Camera) :=
  match _getSupportedVideoModes c with
  | none => some (false, c)
  | some supportedVideoModes =>
    match _getBytesPerPixel c with
    | none => some (false, c)
    | some bytesPerPixel =>
      match nearestFrameSize bytesPerPixel (clampToROI s roi) supportedVideoModes with
      | Outcome.undefined => none
      | Outcome.failed => some (false, c)
      | Outcome.ok toSet =>
        if toSet.height = 0 ∨ toSet.width = 0 then none
        else
          match _setBinning c (roi.height / toSet.height) (roi.width / toSet.width) toSet with
          | (false, c1) => some (false, c1)
          | (true, c1) =>
            match _setStreamerFrameSize c1 toSet with
            | (false, c2) => some (false, c2)
            | (true, c2) => some (true, c2)

/-- `ToFCamera::_setFrameSize(const FrameSize &s, bool resetROI)`. -/
def _setFrameSize (c : Camera) (s : FrameSize) (resetROI : Bool) : Option (Bool × Camera) :=
  if isRunning c then some (false, c)
  else if resetROI then
    match _getMaximumFrameSize c with
    | none => some (false, c)
    | some maxFrameSize =>
      match _setROI c { x := 0, y := 0, width := maxFrameSize.width,
                        height := maxFrameSize.height } with
      | (false, c1) => some (false, c1)
      | (true, c1) =>
        _setFrameSizeWithROI c1 s { x := 0, y := 0, width := maxFrameSize.width,
                                    height := maxFrameSize.height }
  else
    match _getROI c with
    | none => some (false, c)
    | some roi => _setFrameSizeWithROI c s roi

/-- The working ROI of `_setFrameSize` (lines 158-183): the full sensor window when the ROI
is reset, the current ROI otherwise; `none` when it cannot be obtained. -/
def workingROI (c : Camera) (resetROI : Bool) : Option RegionOfInterest :=
  if resetROI then
    match _getMaximumFrameSize c with
    | none => none
    | some maxFrameSize =>
      some { x := 0, y := 0, width := maxFrameSize.width, height := maxFrameSize.height }
  else _getROI c

/-- `ToFCamera::_setFrameSize(const FrameSize &s)`: the overload resetting the ROI. -/
def _setFrameSizeDefault (c : Camera) (s : FrameSize) : Option (Bool × Camera) :=
  _setFrameSize c s true

/-! ## Example devices -/

/-- A camera at rest with a 1280x960 ROI, two bytes per pixel, every read and write
succeeding, and the given catalogue and register contents. -/
def exampleCamera (modes : List SupportedVideoMode) (regs : Reg → Nat) : Camera :=
  { running := false, value := regs, readOk := fun _ => true, writeOk := fun _ => true,
    maximumFrameSize := some { width := 1280, height := 960 },
    roi := { x := 0, y := 0, width := 1280, height := 960 },
    roiReadOk := true, roiWriteOk := true, supportedVideoModes := some modes,
    systemClockFrequency := some 48, streamerOk := true, streamerFrameSize := none,
    issued := [] }

/-- Register contents with `PIXEL_DATA_SIZE = 2` and every other register zero. -/
def twoBytesPerPixel : Reg → Nat :=
  fun r => if r = Reg.PIXEL_DATA_SIZE then 2 else 0

/-- The catalogue of the worked negotiation example: 640x480 and 320x240 at two bytes per
pixel. -/
def vgaCatalogue : List SupportedVideoMode :=
  [{ frameSize := { width := 640, height := 480 }, frameRate := { numerator := 30, denominator := 1 },
     bytesPerPixel := 2 },
   { frameSize := { width := 320, height := 240 }, frameRate := { numerator := 60, denominator := 1 },
     bytesPerPixel := 2 }]

/-- The camera left by the worked example: desired 640x480 on `exampleCamera vgaCatalogue`. -/
def negotiatedVGA : Camera :=
  { exampleCamera vgaCatalogue twoBytesPerPixel with
    value := fun x =>
      if x = Reg.BINNING_EN then 1
      else if x = Reg.BIN_COLUMN_COUNT then 640
      else if x = Reg.BIN_ROW_COUNT then 480
      else if x = Reg.BIN_COLS_TO_MERGE then 1280 / 640
      else if x = Reg.BIN_ROWS_TO_MERGE then 960 / 480
      else twoBytesPerPixel x,
    streamerFrameSize := some { width := 640, height := 480 },
    issued := [Write.register Reg.BIN_ROWS_TO_MERGE 2, Write.register Reg.BIN_COLS_TO_MERGE 2,
      Write.register Reg.BIN_ROW_COUNT 480, Write.register Reg.BIN_COLUMN_COUNT 640,
      Write.register Reg.BINNING_EN 1, Write.streamer { width := 640, height := 480 }] }

/-- Register contents holding the three counters, with every flag register zero. -/
def counters (pixCount quadCount subFrameCount : Nat) : Reg → Nat :=
  fun r =>
    if r = Reg.PIX_CNT_MAX then pixCount
    else if r = Reg.QUAD_CNT_MAX then quadCount
    else if r = Reg.SUBFRAME_CNT_MAX then subFrameCount
    else 0

/-- A camera at rest with the given system clock frequency and register contents, every
read and write succeeding. -/
def clockCamera (sysClkFrequency : Nat) (regs : Reg → Nat) : Camera :=
  { exampleCamera [] regs with systemClockFrequency := some sysClkFrequency }

/-- A camera that is streaming. -/
def streamingCamera : Camera :=
  { exampleCamera vgaCatalogue twoBytesPerPixel with running := true }

/-- A catalogue on a very large sensor: a 100x100 entry and a 60000x60000 entry, whose area
does not fit a 32-bit `int`. -/
def wideCatalogue : List SupportedVideoMode :=
  [{ frameSize := { width := 100, height := 100 }, frameRate := { numerator := 30, denominator := 1 },
     bytesPerPixel := 2 },
   { frameSize := { width := 60000, height := 60000 },
     frameRate := { numerator := 1, denominator := 1 }, bytesPerPixel := 2 }]

/-- A camera at rest whose binning is disabled and whose merge-factor registers hold 7 and
cannot be read. -/
def binningOffCamera : Camera :=
  { exampleCamera [] (fun r => if r = Reg.BINNING_EN then 0 else 7) with
    readOk := fun r => decide (r = Reg.BINNING_EN) }

/-- The five register writes of `_setBinning` (lines 315-317), in the order of the source. -/
def binningWrites (rowsToMerge columnsToMerge : Nat) (frameSize : FrameSize) : List (Reg × Nat) :=
  [(Reg.BIN_ROWS_TO_MERGE, rowsToMerge), (Reg.BIN_COLS_TO_MERGE, columnsToMerge),
   (Reg.BIN_ROW_COUNT, frameSize.height), (Reg.BIN_COLUMN_COUNT, frameSize.width),
   (Reg.BINNING_EN, 1)]

/-- A chain of `_set` calls joined by short-circuit `||`, as a recursion over the list of
writes: the first failing write ends the chain. -/
def writeAll : Camera → List (Reg × Nat) → Bool × Camera
  | c, [] => (true, c)
  | c, p :: rest =>
    match _set c p.1 p.2 with
    | (false, c1) => (false, c1)
    | (true, c1) => writeAll c1 rest

/-- The register contents after storing a list of writes in order. -/
def store (regs : Reg → Nat) : List (Reg × Nat) → Reg → Nat
  | [] => regs
  | p :: rest => store (fun x => if x = p.1 then p.2 else regs x) rest

/-- The record of a register write in the list of issued writes. -/
def asWrite (p : Reg × Nat) : Write :=
  Write.register p.1 p.2

/-- A camera at rest on which every write is accepted except those to the given register. -/
def rejectingCamera (r : Reg) : Camera :=
  { exampleCamera [] twoBytesPerPixel with writeOk := fun x => decide (x ≠ r) }

/-- A streaming camera with a 48 MHz clock, quad count 4 and subframe count 4. -/
def streamingClockCamera : Camera :=
  { clockCamera 48 (counters 0 4 4) with running := true }

end ToFCamera

namespace ToFCamera

/-! ## The catalogue scan -/

theorem scoreA_pos {bpp : Nat} {toSet : FrameSize} {area : Int} {a : SupportedVideoMode}
    (h : 0 < scoreA bpp toSet area a) :
    bpp = a.bytesPerPixel ∧ a.frameSize.width ≤ toSet.width ∧ a.frameSize.height ≤ toSet.height
      ∧ toInt32 (a.frameSize.width * a.frameSize.height) ≤ area
      ∧ scoreA bpp toSet area a = toInt32 (a.frameSize.width * a.frameSize.height) := by
  unfold scoreA at h ⊢
  split_ifs at h ⊢ with hc
  · exact absurd h (lt_irrefl 0)
  · simp only [not_or, not_not, not_lt] at hc
    exact ⟨hc.1, hc.2.2.1, hc.2.2.2, hc.2.1, rfl⟩

theorem scanModes_spec (bpp : Nat) (toSet : FrameSize) (area : Int) :
    ∀ (l : List SupportedVideoMode) (i : Nat) (ms idx : Int),
      (∀ a ∈ l, scoreA bpp toSet area a ≤ (scanModes bpp toSet area l i (ms, idx)).1)
      ∧ ms ≤ (scanModes bpp toSet area l i (ms, idx)).1
      ∧ (scanModes bpp toSet area l i (ms, idx) = (ms, idx)
          ∨ ∃ k a, l.get? k = some a
              ∧ (scanModes bpp toSet area l i (ms, idx)).2 = ((i + k : Nat) : Int)
              ∧ scoreA bpp toSet area a = (scanModes bpp toSet area l i (ms, idx)).1
              ∧ ms < (scanModes bpp toSet area l i (ms, idx)).1
              ∧ ∀ j b, j < k → l.get? j = some b →
                  scoreA bpp toSet area b < (scanModes bpp toSet area l i (ms, idx)).1) := by
  intro l
  induction l with
  | nil => intro i ms idx; simp [scanModes]
  | cons a rest ih =>
    intro i ms idx
    by_cases hgt : scoreA bpp toSet area a > ms
    · have hstep : scanModes bpp toSet area (a :: rest) i (ms, idx)
          = scanModes bpp toSet area rest (i + 1) (scoreA bpp toSet area a, (i : Int)) := by
        simp [scanModes, hgt]
      rw [hstep]
      obtain ⟨hall, hle, hcase⟩ := ih (i + 1) (scoreA bpp toSet area a) (i : Int)
      refine ⟨?_, le_trans (le_of_lt hgt) hle, Or.inr ?_⟩
      · intro x hx
        rcases List.mem_cons.mp hx with rfl | hx
        · exact hle
        · exact hall x hx
      · rcases hcase with heq | ⟨k, b, hk, hidx, hsc, hlt, hfirst⟩
        · refine ⟨0, a, by simp, by simp [heq], by simp [heq], by simpa [heq] using hgt, ?_⟩
          intro j b hj
          exact absurd hj (Nat.not_lt_zero j)
        · refine ⟨k + 1, b, by simpa using hk, ?_, hsc, lt_trans hgt hlt, ?_⟩
          · rw [hidx]; push_cast; ring
          · intro j x hj hx
            cases j with
            | zero =>
              simp at hx
              subst hx
              exact hlt
            | succ j =>
              exact hfirst j x (Nat.lt_of_succ_lt_succ hj) (by simpa using hx)
    · have hstep : scanModes bpp toSet area (a :: rest) i (ms, idx)
          = scanModes bpp toSet area rest (i + 1) (ms, idx) := by
        simp [scanModes, hgt]
      rw [hstep]
      obtain ⟨hall, hle, hcase⟩ := ih (i + 1) ms idx
      have hale : scoreA bpp toSet area a ≤ ms := not_lt.mp hgt
      refine ⟨?_, hle, ?_⟩
      · intro x hx
        rcases List.mem_cons.mp hx with rfl | hx
        · exact le_trans hale hle
        · exact hall x hx
      · rcases hcase with heq | ⟨k, b, hk, hidx, hsc, hlt, hfirst⟩
        · exact Or.inl heq
        · refine Or.inr ⟨k + 1, b, by simpa using hk, ?_, hsc, hlt, ?_⟩
          · rw [hidx]; push_cast; ring
          · intro j x hj hx
            cases j with
            | zero =>
              simp at hx
              subst hx
              exact lt_of_le_of_lt hale hlt
            | succ j =>
              exact hfirst j x (Nat.lt_of_succ_lt_succ hj) (by simpa using hx)

/-- What the scan started at `(0, -1)` returns: either nothing was selected and every score
is at most 0, or the index of the first entry of greatest score, which is positive. -/
theorem scanModes_init (bpp : Nat) (toSet : FrameSize) (area : Int)
    (l : List SupportedVideoMode) :
    ((scanModes bpp toSet area l 0 (0, -1)).2 = -1 ∧ ∀ a ∈ l, scoreA bpp toSet area a ≤ 0)
    ∨ ∃ k a, l.get? k = some a ∧ (scanModes bpp toSet area l 0 (0, -1)).2 = (k : Int)
        ∧ 0 < scoreA bpp toSet area a
        ∧ (∀ b ∈ l, scoreA bpp toSet area b ≤ scoreA bpp toSet area a)
        ∧ ∀ j b, j < k → l.get? j = some b →
            scoreA bpp toSet area b < scoreA bpp toSet area a := by
  obtain ⟨hall, _, hcase⟩ := scanModes_spec bpp toSet area l 0 0 (-1)
  rcases hcase with heq | ⟨k, a, hk, hidx, hsc, hlt, hfirst⟩
  · left
    rw [heq] at hall
    exact ⟨by rw [heq], hall⟩
  · right
    refine ⟨k, a, hk, by simpa using hidx, by rw [hsc]; exact hlt, ?_, ?_⟩
    · intro b hb; rw [hsc]; exact hall b hb
    · intro j b hj hb; rw [hsc]; exact hfirst j b hj hb

/-- The size chosen by lines 200-226, when one is chosen. -/
theorem nearestFrameSize_ok {bpp : Nat} {toSet r : FrameSize} {modes : List SupportedVideoMode}
    (h : nearestFrameSize bpp toSet modes = Outcome.ok r) :
    (modes = [] ∧ r = toSet)
    ∨ ∃ k a, modes.get? k = some a ∧ a.frameSize = r
        ∧ (scanModes bpp toSet (areaOf toSet) modes 0 (0, -1)).2 = (k : Int)
        ∧ 0 < scoreA bpp toSet (areaOf toSet) a
        ∧ (∀ b ∈ modes, scoreA bpp toSet (areaOf toSet) b ≤ scoreA bpp toSet (areaOf toSet) a)
        ∧ ∀ j b, j < k → modes.get? j = some b →
            scoreA bpp toSet (areaOf toSet) b < scoreA bpp toSet (areaOf toSet) a := by
  unfold nearestFrameSize at h
  by_cases hlen : modes.length > 0
  · right
    simp only [hlen, if_true] at h
    rcases scanModes_init bpp toSet (areaOf toSet) modes with ⟨hneg, _⟩ | ⟨k, a, hk, hidx, hpos, hmax, hfirst⟩
    · simp [hneg] at h
    · rw [hidx] at h
      have hnn : ¬ ((k : Int) < 0) := not_lt.mpr (Int.ofNat_nonneg k)
      simp only [hnn, if_false, Int.toNat_ofNat, hk] at h
      refine ⟨k, a, hk, ?_, hidx, hpos, hmax, hfirst⟩
      injection h
  · left
    simp only [hlen, if_false] at h
    refine ⟨List.length_eq_zero.mp (Nat.eq_zero_of_not_pos hlen), ?_⟩
    injection h with h
    exact h.symm

/-- With a non-empty catalogue none of whose entries scores above 0, no size is chosen. -/
theorem nearestFrameSize_failed {bpp : Nat} {toSet : FrameSize} {modes : List SupportedVideoMode}
    (hne : modes ≠ []) (hz : ∀ a ∈ modes, scoreA bpp toSet (areaOf toSet) a ≤ 0) :
    nearestFrameSize bpp toSet modes = Outcome.failed := by
  unfold nearestFrameSize
  have hlen : modes.length > 0 := List.length_pos.mpr hne
  simp only [hlen, if_true]
  rcases scanModes_init bpp toSet (areaOf toSet) modes with ⟨hneg, _⟩ | ⟨k, a, hk, _, hpos, _, _⟩
  · simp [hneg]
  · exact absurd (hz a (List.get?_mem hk)) (not_le.mpr hpos)

/-! ## Lemmas on the register interface -/

theorem _set_frame (c : Camera) (r : Reg) (v : Nat) :
    (_set c r v).2.running = c.running ∧ (_set c r v).2.readOk = c.readOk
      ∧ (_set c r v).2.writeOk = c.writeOk ∧ (_set c r v).2.roi = c.roi
      ∧ (_set c r v).2.supportedVideoModes = c.supportedVideoModes
      ∧ (_set c r v).2.systemClockFrequency = c.systemClockFrequency
      ∧ (_set c r v).2.streamerOk = c.streamerOk
      ∧ (_set c r v).2.streamerFrameSize = c.streamerFrameSize
      ∧ (_set c r v).2.issued = c.issued ++ [Write.register r v] := by
  unfold _set
  split_ifs <;> simp

theorem _set_fst (c : Camera) (r : Reg) (v : Nat) : (_set c r v).1 = c.writeOk r := by
  unfold _set
  split_ifs with h <;> simp [h]

theorem _set_value (c : Camera) (r : Reg) (v : Nat) (x : Reg) :
    (_set c r v).2.value x = if c.writeOk r = true ∧ x = r then v else c.value x := by
  unfold _set
  split_ifs with h1 h2 h3 <;> simp_all

/-- A successful `_setBinning` has issued exactly its five writes and stored their values;
nothing else of the camera changes. -/
theorem _setBinning_true {c c1 : Camera} {rows cols : Nat} {fs : FrameSize}
    (h : _setBinning c rows cols fs = (true, c1)) :
    c1.roi = c.roi ∧ c1.streamerOk = c.streamerOk
      ∧ c1.readOk = c.readOk
      ∧ c1.value Reg.BIN_ROWS_TO_MERGE = rows ∧ c1.value Reg.BIN_COLS_TO_MERGE = cols
      ∧ c1.value Reg.BIN_ROW_COUNT = fs.height ∧ c1.value Reg.BIN_COLUMN_COUNT = fs.width
      ∧ c1.value Reg.BINNING_EN = 1
      ∧ c1.issued = c.issued ++ [Write.register Reg.BIN_ROWS_TO_MERGE rows,
          Write.register Reg.BIN_COLS_TO_MERGE cols, Write.register Reg.BIN_ROW_COUNT fs.height,
          Write.register Reg.BIN_COLUMN_COUNT fs.width, Write.register Reg.BINNING_EN 1] := by
  have h1 : c.writeOk Reg.BIN_ROWS_TO_MERGE = true := by
    by_contra hc
    simp [_setBinning, _set, hc] at h
  have h2 : c.writeOk Reg.BIN_COLS_TO_MERGE = true := by
    by_contra hc
    simp [_setBinning, _set, h1, hc] at h
  have h3 : c.writeOk Reg.BIN_ROW_COUNT = true := by
    by_contra hc
    simp [_setBinning, _set, h1, h2, hc] at h
  have h4 : c.writeOk Reg.BIN_COLUMN_COUNT = true := by
    by_contra hc
    simp [_setBinning, _set, h1, h2, h3, hc] at h
  have h5 : c.writeOk Reg.BINNING_EN = true := by
    by_contra hc
    simp [_setBinning, _set, h1, h2, h3, h4, hc] at h
  simp [_setBinning, _set, h1, h2, h3, h4, h5] at h
  subst h
  simp

theorem _setStreamerFrameSize_true {c c1 : Camera} {s : FrameSize}
    (h : _setStreamerFrameSize c s = (true, c1)) :
    c1.roi = c.roi ∧ c1.value = c.value ∧ c1.readOk = c.readOk
      ∧ c1.streamerFrameSize = some s ∧ c1.issued = c.issued ++ [Write.streamer s] := by
  unfold _setStreamerFrameSize at h
  split_ifs at h <;> simp at h
  subst h
  simp

/-- A successful run of lines 185-244 went through every step. -/
theorem _setFrameSizeWithROI_true {c c' : Camera} {s : FrameSize} {roi : RegionOfInterest}
    (h : _setFrameSizeWithROI c s roi = some (true, c')) :
    ∃ modes bpp toSet c1, c.supportedVideoModes = some modes ∧ _getBytesPerPixel c = some bpp
      ∧ nearestFrameSize bpp (clampToROI s roi) modes = Outcome.ok toSet
      ∧ toSet.height ≠ 0 ∧ toSet.width ≠ 0
      ∧ _setBinning c (roi.height / toSet.height) (roi.width / toSet.width) toSet = (true, c1)
      ∧ _setStreamerFrameSize c1 toSet = (true, c') := by
  unfold _setFrameSizeWithROI _getSupportedVideoModes at h
  cases hm : c.supportedVideoModes with
  | none => simp [hm] at h
  | some modes =>
    cases hb : _getBytesPerPixel c with
    | none => simp [hm, hb] at h
    | some bpp =>
      cases hn : nearestFrameSize bpp (clampToROI s roi) modes with
      | undefined => simp [hm, hb, hn] at h
      | failed => simp [hm, hb, hn] at h
      | ok toSet =>
        simp only [hm, hb, hn] at h
        by_cases hz : toSet.height = 0 ∨ toSet.width = 0
        · simp [hz] at h
        · simp only [hz, if_false] at h
          rcases hbin : _setBinning c (roi.height / toSet.height) (roi.width / toSet.width) toSet
            with ⟨b1, c1⟩
          rw [hbin] at h
          cases b1 with
          | false => simp at h
          | true =>
            rcases hst : _setStreamerFrameSize c1 toSet with ⟨b2, c2⟩
            simp only [hst] at h
            cases b2 with
            | false => simp at h
            | true =>
              simp at h
              subst h
              simp only [not_or] at hz
              exact ⟨modes, bpp, toSet, c1, rfl, rfl, hn, hz.1, hz.2, hbin, hst⟩

theorem _set_eq_of_writeOk {c : Camera} {r : Reg} (v : Nat) (h : c.writeOk r = true) :
    _set c r v = (true, (_set c r v).2) := by
  have h1 : (_set c r v).1 = true := by rw [_set_fst, h]
  exact Prod.ext h1 rfl

/-- When the five binning registers accept writes, `_setBinning` succeeds. -/
theorem _setBinning_of_writeOk (c : Camera) (rows cols : Nat) (fs : FrameSize)
    (h1 : c.writeOk Reg.BIN_ROWS_TO_MERGE = true) (h2 : c.writeOk Reg.BIN_COLS_TO_MERGE = true)
    (h3 : c.writeOk Reg.BIN_ROW_COUNT = true) (h4 : c.writeOk Reg.BIN_COLUMN_COUNT = true)
    (h5 : c.writeOk Reg.BINNING_EN = true) :
    ∃ c1, _setBinning c rows cols fs = (true, c1) := by
  have e1 := _set_eq_of_writeOk rows h1
  have w1 : (_set c Reg.BIN_ROWS_TO_MERGE rows).2.writeOk = c.writeOk :=
    (_set_frame c Reg.BIN_ROWS_TO_MERGE rows).2.2.1
  generalize (_set c Reg.BIN_ROWS_TO_MERGE rows).2 = c1 at e1 w1
  have e2 := _set_eq_of_writeOk (c := c1) cols (by rw [w1]; exact h2)
  have w2 : (_set c1 Reg.BIN_COLS_TO_MERGE cols).2.writeOk = c.writeOk :=
    ((_set_frame c1 Reg.BIN_COLS_TO_MERGE cols).2.2.1).trans w1
  generalize (_set c1 Reg.BIN_COLS_TO_MERGE cols).2 = c2 at e2 w2
  have e3 := _set_eq_of_writeOk (c := c2) fs.height (by rw [w2]; exact h3)
  have w3 : (_set c2 Reg.BIN_ROW_COUNT fs.height).2.writeOk = c.writeOk :=
    ((_set_frame c2 Reg.BIN_ROW_COUNT fs.height).2.2.1).trans w2
  generalize (_set c2 Reg.BIN_ROW_COUNT fs.height).2 = c3 at e3 w3
  have e4 := _set_eq_of_writeOk (c := c3) fs.width (by rw [w3]; exact h4)
  have w4 : (_set c3 Reg.BIN_COLUMN_COUNT fs.width).2.writeOk = c.writeOk :=
    ((_set_frame c3 Reg.BIN_COLUMN_COUNT fs.width).2.2.1).trans w3
  generalize (_set c3 Reg.BIN_COLUMN_COUNT fs.width).2 = c4 at e4 w4
  have e5 := _set_eq_of_writeOk (c := c4) 1 (by rw [w4]; exact h5)
  generalize (_set c4 Reg.BINNING_EN 1).2 = c5 at e5
  refine ⟨c5, ?_⟩
  unfold _setBinning
  simp only [e1, e2, e3, e4, e5]

theorem _setStreamerFrameSize_of_ok (c : Camera) (s : FrameSize) (h : c.streamerOk = true) :
    ∃ c1, _setStreamerFrameSize c s = (true, c1) := by
  unfold _setStreamerFrameSize
  rw [if_pos h]
  exact ⟨_, rfl⟩

/-- Lines 185-244 succeed when every step does. -/
theorem _setFrameSizeWithROI_of_steps {c c1 c2 : Camera} {s toSet : FrameSize}
    {roi : RegionOfInterest} {modes : List SupportedVideoMode} {bpp : Nat}
    (hm : c.supportedVideoModes = some modes) (hb : _getBytesPerPixel c = some bpp)
    (hn : nearestFrameSize bpp (clampToROI s roi) modes = Outcome.ok toSet)
    (hh : toSet.height ≠ 0) (hw : toSet.width ≠ 0)
    (hbin : _setBinning c (roi.height / toSet.height) (roi.width / toSet.width) toSet
      = (true, c1))
    (hst : _setStreamerFrameSize c1 toSet = (true, c2)) :
    _setFrameSizeWithROI c s roi = some (true, c2) := by
  have hz : ¬ (toSet.height = 0 ∨ toSet.width = 0) := not_or.mpr ⟨hh, hw⟩
  unfold _setFrameSizeWithROI _getSupportedVideoModes
  simp only [hm, hb, hn, if_neg hz, hbin, hst]

/-- Without ROI reset, at rest and with a readable ROI, `_setFrameSize` runs lines 185-244
on the current ROI. -/
theorem _setFrameSize_keepROI {c : Camera} (s : FrameSize) (hrun : c.running = false)
    (hroi : c.roiReadOk = true) :
    _setFrameSize c s false = _setFrameSizeWithROI c s c.roi := by
  unfold _setFrameSize isRunning _getROI
  simp only [hrun, hroi, Bool.false_eq_true, if_false, if_true]

/-- A successful `_setFrameSize` was called at rest, obtained its working ROI, and ran
lines 185-244 on a camera that differs from the initial one at most by the ROI write. -/
theorem _setFrameSize_true {c c' : Camera} {s : FrameSize} {resetROI : Bool}
    (h : _setFrameSize c s resetROI = some (true, c')) :
    c.running = false ∧ ∃ roi c0, workingROI c resetROI = some roi ∧ c0.roi = roi
      ∧ c0.supportedVideoModes = c.supportedVideoModes ∧ c0.value = c.value
      ∧ c0.readOk = c.readOk ∧ _setFrameSizeWithROI c0 s roi = some (true, c') := by
  unfold _setFrameSize isRunning at h
  cases hrun : c.running with
  | true => simp [hrun] at h
  | false =>
    refine ⟨rfl, ?_⟩
    simp only [hrun, Bool.false_eq_true, if_false] at h
    cases resetROI with
    | true =>
      simp only [if_true] at h
      unfold workingROI
      cases hmax : _getMaximumFrameSize c with
      | none => simp [hmax] at h
      | some m =>
        simp only [hmax] at h
        by_cases hw : c.roiWriteOk = true
        · simp only [_setROI, hw, if_true] at h
          refine ⟨_, _, ?_, ?_, ?_, ?_, ?_, h⟩ <;> simp [hmax]
        · simp [_setROI, hw] at h
    | false =>
      simp only [Bool.false_eq_true, if_false] at h
      unfold workingROI
      cases hroi : _getROI c with
      | none => simp [hroi] at h
      | some roi =>
        simp only [hroi] at h
        refine ⟨roi, c, by simp, ?_, rfl, rfl, rfl, h⟩
        unfold _getROI at hroi
        split_ifs at hroi
        injection hroi

theorem clampToROI_le (s : FrameSize) (roi : RegionOfInterest) :
    (clampToROI s roi).width ≤ s.width ∧ (clampToROI s roi).width ≤ roi.width
      ∧ (clampToROI s roi).height ≤ s.height ∧ (clampToROI s roi).height ≤ roi.height := by
  unfold clampToROI
  refine ⟨?_, ?_, ?_, ?_⟩ <;> dsimp only <;> split_ifs <;> omega

/-! ## Frame-size negotiation: the claims -/

/-- C1. Whenever `_setFrameSize` succeeds, the applied frame size (handed to the streamer
and written to the row/column count registers) has an area of at most
min(desired area, working-ROI area), and with a non-empty catalogue it is the frame size of
some catalogue entry. -/
theorem setFrameSize_area_le_and_in_catalogue (c c' : Camera) (s : FrameSize)
    (resetROI : Bool) (h : _setFrameSize c s resetROI = some (true, c')) :
    ∃ roi toSet, workingROI c resetROI = some roi ∧ c'.streamerFrameSize = some toSet
      ∧ c'.value Reg.BIN_COLUMN_COUNT = toSet.width ∧ c'.value Reg.BIN_ROW_COUNT = toSet.height
      ∧ toSet.width * toSet.height ≤ min (s.width * s.height) (roi.width * roi.height)
      ∧ ∀ modes, c.supportedVideoModes = some modes → modes ≠ [] →
          ∃ m ∈ modes, m.frameSize = toSet := by
  obtain ⟨_, roi, c0, hroi, _, hmodes, _, _, hrun⟩ := _setFrameSize_true h
  obtain ⟨modes, bpp, toSet, c1, hm, _, hn, _, _, hbin, hst⟩ := _setFrameSizeWithROI_true hrun
  obtain ⟨_, _, _, _, _, hrow, hcol, _, _⟩ := _setBinning_true hbin
  obtain ⟨_, hval, _, hsfs, _⟩ := _setStreamerFrameSize_true hst
  obtain ⟨hw1, hw2, hh1, hh2⟩ := clampToROI_le s roi
  refine ⟨roi, toSet, hroi, hsfs, by rw [hval, hcol], by rw [hval, hrow], ?_, ?_⟩
  · rcases nearestFrameSize_ok hn with ⟨_, rfl⟩ | ⟨k, a, _, rfl, _, hpos, _, _⟩
    · exact le_min (Nat.mul_le_mul hw1 hh1) (Nat.mul_le_mul hw2 hh2)
    · obtain ⟨_, haw, hah, _, _⟩ := scoreA_pos hpos
      exact le_min (Nat.mul_le_mul (le_trans haw hw1) (le_trans hah hh1))
        (Nat.mul_le_mul (le_trans haw hw2) (le_trans hah hh2))
  · intro modes' hm' hne
    rw [hmodes] at hm
    rw [hm'] at hm
    injection hm with hm
    subst hm
    rcases nearestFrameSize_ok hn with ⟨hnil, _⟩ | ⟨k, a, hk, hfs, _, _, _, _⟩
    · exact absurd hnil hne
    · exact ⟨a, List.get?_mem hk, hfs⟩

/-- C1, at the worked example: desired 640x480 on a 1280x960 ROI. -/
theorem setFrameSize_area_le_and_in_catalogue_witness :
    _setFrameSize (exampleCamera vgaCatalogue twoBytesPerPixel) ⟨640, 480⟩ false
        = some (true, negotiatedVGA)
    ∧ ∃ roi toSet, workingROI (exampleCamera vgaCatalogue twoBytesPerPixel) false = some roi
      ∧ negotiatedVGA.streamerFrameSize = some toSet
      ∧ negotiatedVGA.value Reg.BIN_COLUMN_COUNT = toSet.width
      ∧ negotiatedVGA.value Reg.BIN_ROW_COUNT = toSet.height
      ∧ toSet.width * toSet.height ≤ min (640 * 480) (roi.width * roi.height)
      ∧ ∀ modes, (exampleCamera vgaCatalogue twoBytesPerPixel).supportedVideoModes = some modes →
          modes ≠ [] → ∃ m ∈ modes, m.frameSize = toSet :=
  ⟨rfl, setFrameSize_area_le_and_in_catalogue _ _ ⟨640, 480⟩ false rfl⟩

theorem toInt32_of_lt {n : Nat} (h : n < 2 ^ 31) : toInt32 n = (n : Int) := by
  unfold toInt32
  have h1 : n % 2 ^ 32 = n := Nat.mod_eq_of_lt (by omega)
  rw [h1, if_pos h]

/-- When the target area fits an `int`, an entry that matches the bytes per pixel and fits
the target scores its exact area. -/
theorem scoreA_of_fits {bpp : Nat} {toSet : FrameSize} {a : SupportedVideoMode}
    (hfit : toSet.width * toSet.height < 2 ^ 31) (hb : a.bytesPerPixel = bpp)
    (hw : a.frameSize.width ≤ toSet.width) (hh : a.frameSize.height ≤ toSet.height) :
    scoreA bpp toSet (areaOf toSet) a = ((a.frameSize.width * a.frameSize.height : Nat) : Int) := by
  have hle : a.frameSize.width * a.frameSize.height ≤ toSet.width * toSet.height :=
    Nat.mul_le_mul hw hh
  have h1 : toInt32 (a.frameSize.width * a.frameSize.height)
      = ((a.frameSize.width * a.frameSize.height : Nat) : Int) :=
    toInt32_of_lt (lt_of_le_of_lt hle hfit)
  have h2 : areaOf toSet = ((toSet.width * toSet.height : Nat) : Int) := by
    unfold areaOf
    rw [Nat.mul_comm]
    exact toInt32_of_lt hfit
  unfold scoreA
  rw [h1, h2]
  have hc : ¬ (bpp ≠ a.bytesPerPixel
      ∨ ((a.frameSize.width * a.frameSize.height : Nat) : Int) > ((toSet.width * toSet.height : Nat) : Int)
      ∨ a.frameSize.width > toSet.width ∨ a.frameSize.height > toSet.height) := by
    simp only [not_or, not_not, not_lt, gt_iff_lt]
    exact ⟨hb.symm, Int.ofNat_le.mpr hle, hw, hh⟩
  rw [if_neg hc]

/-- C2, as amended: provided the target area fits a 32-bit `int`, and some entry scores
above 0, the scan selects an index `k` whose entry matches the bytes per pixel and fits the
target, has an area at least that of every such entry, and strictly greater than that of
every such entry before it. -/
theorem scan_selects_first_greatest (bpp : Nat) (toSet : FrameSize)
    (modes : List SupportedVideoMode)
    (hpos : ∃ a ∈ modes, 0 < scoreA bpp toSet (areaOf toSet) a)
    (hfit : toSet.width * toSet.height < 2 ^ 31) :
    ∃ (k : Nat) (m : SupportedVideoMode),
      (scanModes bpp toSet (areaOf toSet) modes 0 (0, -1)).2 = (k : Int)
      ∧ modes.get? k = some m ∧ nearestFrameSize bpp toSet modes = Outcome.ok m.frameSize
      ∧ m.bytesPerPixel = bpp ∧ m.frameSize.width ≤ toSet.width
      ∧ m.frameSize.height ≤ toSet.height
      ∧ (∀ a ∈ modes, a.bytesPerPixel = bpp → a.frameSize.width ≤ toSet.width →
          a.frameSize.height ≤ toSet.height →
          a.frameSize.width * a.frameSize.height ≤ m.frameSize.width * m.frameSize.height)
      ∧ ∀ j a, j < k → modes.get? j = some a → a.bytesPerPixel = bpp →
          a.frameSize.width ≤ toSet.width → a.frameSize.height ≤ toSet.height →
          a.frameSize.width * a.frameSize.height < m.frameSize.width * m.frameSize.height := by
  obtain ⟨a0, ha0, hpos0⟩ := hpos
  rcases scanModes_init bpp toSet (areaOf toSet) modes with ⟨_, hz⟩ | ⟨k, m, hk, hidx, hmpos, hmax, hfirst⟩
  · exact absurd (hz a0 ha0) (not_le.mpr hpos0)
  · obtain ⟨hmb, hmw, hmh, _, _⟩ := scoreA_pos hmpos
    have hms := scoreA_of_fits hfit hmb.symm hmw hmh
    refine ⟨k, m, hidx, hk, ?_, hmb.symm, hmw, hmh, ?_, ?_⟩
    · unfold nearestFrameSize
      have hlen : modes.length > 0 := List.length_pos.mpr (List.ne_nil_of_mem ha0)
      have hnn : ¬ ((k : Int) < 0) := not_lt.mpr (Int.ofNat_nonneg k)
      simp only [hlen, if_true, hidx, hnn, if_false, Int.toNat_ofNat, hk]
    · intro a ha hb hw hh
      have h := hmax a ha
      rw [scoreA_of_fits hfit hb hw hh, hms] at h
      exact Int.ofNat_le.mp h
    · intro j a hj hja hb hw hh
      have h := hfirst j a hj hja
      rw [scoreA_of_fits hfit hb hw hh, hms] at h
      exact Int.ofNat_lt.mp h

/-- C2, at the worked example: target 640x480, where the first catalogue entry is chosen. -/
theorem scan_selects_first_greatest_witness :
    (∃ a ∈ vgaCatalogue, 0 < scoreA 2 ⟨640, 480⟩ (areaOf ⟨640, 480⟩) a)
    ∧ 640 * 480 < 2 ^ 31
    ∧ ∃ (k : Nat) (m : SupportedVideoMode),
      (scanModes 2 ⟨640, 480⟩ (areaOf ⟨640, 480⟩) vgaCatalogue 0 (0, -1)).2 = (k : Int)
      ∧ vgaCatalogue.get? k = some m
      ∧ nearestFrameSize 2 ⟨640, 480⟩ vgaCatalogue = Outcome.ok m.frameSize
      ∧ m.bytesPerPixel = 2 ∧ m.frameSize.width ≤ 640 ∧ m.frameSize.height ≤ 480
      ∧ (∀ a ∈ vgaCatalogue, a.bytesPerPixel = 2 → a.frameSize.width ≤ 640 →
          a.frameSize.height ≤ 480 →
          a.frameSize.width * a.frameSize.height ≤ m.frameSize.width * m.frameSize.height)
      ∧ ∀ j a, j < k → vgaCatalogue.get? j = some a → a.bytesPerPixel = 2 →
          a.frameSize.width ≤ 640 → a.frameSize.height ≤ 480 →
          a.frameSize.width * a.frameSize.height < m.frameSize.width * m.frameSize.height :=
  ⟨⟨_, List.mem_cons_self _ _, by decide⟩, by decide,
    scan_selects_first_greatest 2 ⟨640, 480⟩ vgaCatalogue
      ⟨_, List.mem_cons_self _ _, by decide⟩ (by decide)⟩

/-- C2 fails as stated: with target 70000x70000 (its area wraps in a 32-bit `int`) the
100x100 entry scores above 0 and is chosen at index 0, although the 60000x60000 entry
matches the bytes per pixel, fits the target and has a greater area. -/
theorem scan_misses_greatest_area_on_wrap :
    0 < scoreA 2 ⟨70000, 70000⟩ (areaOf ⟨70000, 70000⟩) ⟨⟨100, 100⟩, ⟨30, 1⟩, 2⟩
    ∧ (scanModes 2 ⟨70000, 70000⟩ (areaOf ⟨70000, 70000⟩) wideCatalogue 0 (0, -1)).2 = 0
    ∧ nearestFrameSize 2 ⟨70000, 70000⟩ wideCatalogue = Outcome.ok ⟨100, 100⟩
    ∧ (⟨⟨60000, 60000⟩, ⟨1, 1⟩, 2⟩ : SupportedVideoMode) ∈ wideCatalogue
    ∧ (60000 : Nat) ≤ 70000
    ∧ ¬ (60000 * 60000 ≤ 100 * 100) := by
  decide

/-- C3. On any camera at rest whose ROI reads 1280x960, with two bytes per pixel, the
catalogue [640x480, 320x240] (both two bytes per pixel) and every write accepted,
`_setFrameSize` without ROI reset applies 640x480 with binning (2, 2) for desired 640x480,
and 320x240 with binning (4, 4) for desired 600x400. -/
theorem setFrameSize_worked_example (c : Camera) (fr1 fr2 : FrameRate)
    (hrun : c.running = false) (hroi : c.roiReadOk = true)
    (hw : c.roi.width = 1280) (hh : c.roi.height = 960)
    (hm : c.supportedVideoModes = some [⟨⟨640, 480⟩, fr1, 2⟩, ⟨⟨320, 240⟩, fr2, 2⟩])
    (hr : c.readOk Reg.PIXEL_DATA_SIZE = true) (hb : c.value Reg.PIXEL_DATA_SIZE = 2)
    (hwr : ∀ r, c.writeOk r = true) (hs : c.streamerOk = true) :
    (∃ c1, _setFrameSize c ⟨640, 480⟩ false = some (true, c1)
      ∧ c1.streamerFrameSize = some ⟨640, 480⟩
      ∧ c1.value Reg.BIN_ROWS_TO_MERGE = 2 ∧ c1.value Reg.BIN_COLS_TO_MERGE = 2
      ∧ c1.value Reg.BIN_ROW_COUNT = 480 ∧ c1.value Reg.BIN_COLUMN_COUNT = 640
      ∧ c1.issued = c.issued ++ [Write.register Reg.BIN_ROWS_TO_MERGE 2,
          Write.register Reg.BIN_COLS_TO_MERGE 2, Write.register Reg.BIN_ROW_COUNT 480,
          Write.register Reg.BIN_COLUMN_COUNT 640, Write.register Reg.BINNING_EN 1,
          Write.streamer ⟨640, 480⟩])
    ∧ ∃ c2, _setFrameSize c ⟨600, 400⟩ false = some (true, c2)
      ∧ c2.streamerFrameSize = some ⟨320, 240⟩
      ∧ c2.value Reg.BIN_ROWS_TO_MERGE = 4 ∧ c2.value Reg.BIN_COLS_TO_MERGE = 4
      ∧ c2.value Reg.BIN_ROW_COUNT = 240 ∧ c2.value Reg.BIN_COLUMN_COUNT = 320
      ∧ c2.issued = c.issued ++ [Write.register Reg.BIN_ROWS_TO_MERGE 4,
          Write.register Reg.BIN_COLS_TO_MERGE 4, Write.register Reg.BIN_ROW_COUNT 240,
          Write.register Reg.BIN_COLUMN_COUNT 320, Write.register Reg.BINNING_EN 1,
          Write.streamer ⟨320, 240⟩] := by
  have hbpp : _getBytesPerPixel c = some 2 := by
    simp [_getBytesPerPixel, _get, hr, hb]
  have hn1 : nearestFrameSize 2 (clampToROI ⟨640, 480⟩ c.roi)
      [⟨⟨640, 480⟩, fr1, 2⟩, ⟨⟨320, 240⟩, fr2, 2⟩] = Outcome.ok ⟨640, 480⟩ := by
    have hcl : clampToROI ⟨640, 480⟩ c.roi = ⟨640, 480⟩ := by simp [clampToROI, hw, hh]
    have hscan : scanModes 2 ⟨640, 480⟩ (areaOf ⟨640, 480⟩)
        [⟨⟨640, 480⟩, fr1, 2⟩, ⟨⟨320, 240⟩, fr2, 2⟩] 0 (0, -1) = (307200, 0) := by
      unfold areaOf scanModes scoreA
      dsimp only
      norm_num [toInt32, scanModes, scoreA]
    rw [hcl]
    unfold nearestFrameSize
    rw [hscan]
    simp
  have hn2 : nearestFrameSize 2 (clampToROI ⟨600, 400⟩ c.roi)
      [⟨⟨640, 480⟩, fr1, 2⟩, ⟨⟨320, 240⟩, fr2, 2⟩] = Outcome.ok ⟨320, 240⟩ := by
    have hcl : clampToROI ⟨600, 400⟩ c.roi = ⟨600, 400⟩ := by simp [clampToROI, hw, hh]
    have hscan : scanModes 2 ⟨600, 400⟩ (areaOf ⟨600, 400⟩)
        [⟨⟨640, 480⟩, fr1, 2⟩, ⟨⟨320, 240⟩, fr2, 2⟩] 0 (0, -1) = (76800, 1) := by
      unfold areaOf scanModes scoreA
      dsimp only
      norm_num [toInt32, scanModes, scoreA]
    rw [hcl]
    unfold nearestFrameSize
    rw [hscan]
    simp
  constructor
  · obtain ⟨c1, hbin⟩ := _setBinning_of_writeOk c (c.roi.height / 480) (c.roi.width / 640)
      ⟨640, 480⟩ (hwr _) (hwr _) (hwr _) (hwr _) (hwr _)
    obtain ⟨_, hso, _, hv1, hv2, hv3, hv4, _, hi1⟩ := _setBinning_true hbin
    obtain ⟨c2, hst⟩ := _setStreamerFrameSize_of_ok c1 ⟨640, 480⟩ (by rw [hso]; exact hs)
    obtain ⟨_, hval, _, hsfs, hi2⟩ := _setStreamerFrameSize_true hst
    have hrows : c.roi.height / 480 = 2 := by rw [hh]
    have hcols : c.roi.width / 640 = 2 := by rw [hw]
    simp only [hrows, hcols] at hi1 hv1 hv2 hv3 hv4
    refine ⟨c2, ?_, hsfs, by rw [hval, hv1], by rw [hval, hv2], by rw [hval, hv3],
      by rw [hval, hv4], by rw [hi2, hi1]; simp⟩
    rw [_setFrameSize_keepROI _ hrun hroi]
    exact _setFrameSizeWithROI_of_steps hm hbpp hn1 (by decide) (by decide) hbin hst
  · obtain ⟨c1, hbin⟩ := _setBinning_of_writeOk c (c.roi.height / 240) (c.roi.width / 320)
      ⟨320, 240⟩ (hwr _) (hwr _) (hwr _) (hwr _) (hwr _)
    obtain ⟨_, hso, _, hv1, hv2, hv3, hv4, _, hi1⟩ := _setBinning_true hbin
    obtain ⟨c2, hst⟩ := _setStreamerFrameSize_of_ok c1 ⟨320, 240⟩ (by rw [hso]; exact hs)
    obtain ⟨_, hval, _, hsfs, hi2⟩ := _setStreamerFrameSize_true hst
    have hrows : c.roi.height / 240 = 4 := by rw [hh]
    have hcols : c.roi.width / 320 = 4 := by rw [hw]
    simp only [hrows, hcols] at hi1 hv1 hv2 hv3 hv4
    refine ⟨c2, ?_, hsfs, by rw [hval, hv1], by rw [hval, hv2], by rw [hval, hv3],
      by rw [hval, hv4], by rw [hi2, hi1]; simp⟩
    rw [_setFrameSize_keepROI _ hrun hroi]
    exact _setFrameSizeWithROI_of_steps hm hbpp hn2 (by decide) (by decide) hbin hst

/-- C3, on `exampleCamera vgaCatalogue twoBytesPerPixel`. -/
theorem setFrameSize_worked_example_witness :
    (∃ c1, _setFrameSize (exampleCamera vgaCatalogue twoBytesPerPixel) ⟨640, 480⟩ false
        = some (true, c1)
      ∧ c1.streamerFrameSize = some ⟨640, 480⟩
      ∧ c1.value Reg.BIN_ROWS_TO_MERGE = 2 ∧ c1.value Reg.BIN_COLS_TO_MERGE = 2
      ∧ c1.value Reg.BIN_ROW_COUNT = 480 ∧ c1.value Reg.BIN_COLUMN_COUNT = 640
      ∧ c1.issued = (exampleCamera vgaCatalogue twoBytesPerPixel).issued
          ++ [Write.register Reg.BIN_ROWS_TO_MERGE 2,
          Write.register Reg.BIN_COLS_TO_MERGE 2, Write.register Reg.BIN_ROW_COUNT 480,
          Write.register Reg.BIN_COLUMN_COUNT 640, Write.register Reg.BINNING_EN 1,
          Write.streamer ⟨640, 480⟩])
    ∧ ∃ c2, _setFrameSize (exampleCamera vgaCatalogue twoBytesPerPixel) ⟨600, 400⟩ false
        = some (true, c2)
      ∧ c2.streamerFrameSize = some ⟨320, 240⟩
      ∧ c2.value Reg.BIN_ROWS_TO_MERGE = 4 ∧ c2.value Reg.BIN_COLS_TO_MERGE = 4
      ∧ c2.value Reg.BIN_ROW_COUNT = 240 ∧ c2.value Reg.BIN_COLUMN_COUNT = 320
      ∧ c2.issued = (exampleCamera vgaCatalogue twoBytesPerPixel).issued
          ++ [Write.register Reg.BIN_ROWS_TO_MERGE 4,
          Write.register Reg.BIN_COLS_TO_MERGE 4, Write.register Reg.BIN_ROW_COUNT 240,
          Write.register Reg.BIN_COLUMN_COUNT 320, Write.register Reg.BINNING_EN 1,
          Write.streamer ⟨320, 240⟩] :=
  setFrameSize_worked_example (exampleCamera vgaCatalogue twoBytesPerPixel) ⟨30, 1⟩ ⟨60, 1⟩
    rfl rfl rfl rfl rfl rfl rfl (fun _ => rfl) rfl

/-- With a non-empty catalogue none of whose entries scores above 0, lines 185-244 return
false before any write. -/
theorem _setFrameSizeWithROI_failed {c : Camera} {s : FrameSize} {roi : RegionOfInterest}
    {modes : List SupportedVideoMode} (hm : c.supportedVideoModes = some modes)
    (hne : modes ≠ [])
    (hz : ∀ bpp, _getBytesPerPixel c = some bpp →
      ∀ a ∈ modes, scoreA bpp (clampToROI s roi) (areaOf (clampToROI s roi)) a ≤ 0) :
    _setFrameSizeWithROI c s roi = some (false, c) := by
  unfold _setFrameSizeWithROI _getSupportedVideoModes
  simp only [hm]
  cases hb : _getBytesPerPixel c with
  | none => rfl
  | some bpp => simp only [nearestFrameSize_failed hne (hz bpp hb)]

/-- C4, as amended: with a non-empty catalogue none of whose entries scores above 0 for the
working ROI, `_setFrameSize` returns false, writes no register and hands no frame size to
the streamer; the only write it may have issued is the ROI reset. -/
theorem setFrameSize_no_compatible_mode (c : Camera) (s : FrameSize) (resetROI : Bool)
    (modes : List SupportedVideoMode) (hm : c.supportedVideoModes = some modes)
    (hne : modes ≠ [])
    (hz : ∀ roi bpp, workingROI c resetROI = some roi → _getBytesPerPixel c = some bpp →
      ∀ a ∈ modes, scoreA bpp (clampToROI s roi) (areaOf (clampToROI s roi)) a ≤ 0) :
    ∃ c', _setFrameSize c s resetROI = some (false, c') ∧ c'.value = c.value
      ∧ c'.streamerFrameSize = c.streamerFrameSize
      ∧ ∀ w ∈ c'.issued, w ∈ c.issued ∨ ∃ r, w = Write.roi r := by
  unfold _setFrameSize isRunning
  cases hrun : c.running with
  | true => exact ⟨c, by simp, rfl, rfl, fun w hw => Or.inl hw⟩
  | false =>
    simp only [Bool.false_eq_true, if_false]
    cases resetROI with
    | true =>
      simp only [if_true]
      cases hmax : _getMaximumFrameSize c with
      | none => exact ⟨c, rfl, rfl, rfl, fun w hw => Or.inl hw⟩
      | some m =>
        have hroi : workingROI c true
            = some { x := 0, y := 0, width := m.width, height := m.height } := by
          simp [workingROI, hmax]
        by_cases hw : c.roiWriteOk = true
        · simp only [_setROI, hw, if_true]
          refine ⟨_, _setFrameSizeWithROI_failed hm hne ?_, rfl, rfl, ?_⟩
          · intro bpp hb
            exact hz _ bpp hroi hb
          · intro w hw
            rcases List.mem_append.mp hw with h | h
            · exact Or.inl h
            · exact Or.inr ⟨_, List.mem_singleton.mp h⟩
        · simp only [_setROI, hw]
          refine ⟨_, rfl, rfl, rfl, ?_⟩
          intro w hw
          rcases List.mem_append.mp hw with h | h
          · exact Or.inl h
          · exact Or.inr ⟨_, List.mem_singleton.mp h⟩
    | false =>
      simp only [Bool.false_eq_true, if_false]
      cases hroi : _getROI c with
      | none => exact ⟨c, rfl, rfl, rfl, fun w hw => Or.inl hw⟩
      | some roi =>
        refine ⟨c, _setFrameSizeWithROI_failed hm hne ?_, rfl, rfl, fun w hw => Or.inl hw⟩
        intro bpp hb
        exact hz roi bpp (by simp [workingROI, hroi]) hb

/-- C4, at an example: desired 100x100 against the catalogue [640x480, 320x240], where no
entry fits. -/
theorem setFrameSize_no_compatible_mode_witness :
    ∃ c', _setFrameSize (exampleCamera vgaCatalogue twoBytesPerPixel) ⟨100, 100⟩ false
        = some (false, c')
      ∧ c'.value = (exampleCamera vgaCatalogue twoBytesPerPixel).value
      ∧ c'.streamerFrameSize = (exampleCamera vgaCatalogue twoBytesPerPixel).streamerFrameSize
      ∧ ∀ w ∈ c'.issued, w ∈ (exampleCamera vgaCatalogue twoBytesPerPixel).issued
          ∨ ∃ r, w = Write.roi r :=
  setFrameSize_no_compatible_mode (exampleCamera vgaCatalogue twoBytesPerPixel) ⟨100, 100⟩ false
    vgaCatalogue rfl (by decide)
    (fun roi bpp h1 h2 => by
      have e1 : some ({ x := 0, y := 0, width := 1280, height := 960 } : RegionOfInterest)
          = some roi := h1
      have e2 : some 2 = some bpp := h2
      injection e1 with e1
      injection e2 with e2
      subst e1 e2
      decide)

/-- C4 fails as stated for the empty catalogue: no entry scores above 0, yet `_setFrameSize`
returns true, having written the binning registers and the streamer frame size for the
clamped desired size. -/
theorem setFrameSize_empty_catalogue_commits :
    (∀ a ∈ ([] : List SupportedVideoMode),
        scoreA 2 (clampToROI ⟨640, 480⟩ ⟨0, 0, 1280, 960⟩)
          (areaOf (clampToROI ⟨640, 480⟩ ⟨0, 0, 1280, 960⟩)) a ≤ 0)
    ∧ (_setFrameSize (exampleCamera [] twoBytesPerPixel) ⟨640, 480⟩ false).map
        (fun p => (p.1, p.2.issued, p.2.streamerFrameSize))
      = some (true, [Write.register Reg.BIN_ROWS_TO_MERGE 2,
          Write.register Reg.BIN_COLS_TO_MERGE 2, Write.register Reg.BIN_ROW_COUNT 480,
          Write.register Reg.BIN_COLUMN_COUNT 640, Write.register Reg.BINNING_EN 1,
          Write.streamer ⟨640, 480⟩], some ⟨640, 480⟩) := by
  decide

/-- C5. While the camera is streaming, `_setFrameSize` returns false for every size and
both values of `resetROI` (and so does the one-argument overload), and the camera,
including the list of issued writes, is exactly as before. -/
theorem setFrameSize_while_streaming (c : Camera) (s : FrameSize) (resetROI : Bool)
    (h : isRunning c = true) :
    _setFrameSize c s resetROI = some (false, c) ∧ _setFrameSizeDefault c s = some (false, c) := by
  unfold _setFrameSizeDefault _setFrameSize
  simp [h]

/-- C5, on a streaming camera. -/
theorem setFrameSize_while_streaming_witness :
    isRunning streamingCamera = true
    ∧ _setFrameSize streamingCamera ⟨640, 480⟩ true = some (false, streamingCamera)
    ∧ _setFrameSizeDefault streamingCamera ⟨640, 480⟩ = some (false, streamingCamera) :=
  ⟨rfl, setFrameSize_while_streaming streamingCamera ⟨640, 480⟩ true rfl⟩

/-! ## Maximum frame rate: the claim -/

theorem scoreMin_nonneg {bpp : Nat} {f : FrameSize} {area : Int} {a : SupportedVideoMode}
    (h : 0 ≤ toInt32 (a.frameSize.width * a.frameSize.height)) : 0 ≤ scoreMin bpp f area a := by
  unfold scoreMin
  split_ifs
  · exact le_refl 0
  · exact h

/-- A scan in which no score is below the running best changes nothing. -/
theorem scanMin_unchanged (bpp : Nat) (f : FrameSize) (area : Int) :
    ∀ (l : List SupportedVideoMode) (i : Nat) (ms idx : Int),
      (∀ a ∈ l, ms ≤ scoreMin bpp f area a) → scanMin bpp f area l i (ms, idx) = (ms, idx) := by
  intro l
  induction l with
  | nil => intro i ms idx _; rfl
  | cons a rest ih =>
    intro i ms idx h
    have ha : ¬ scoreMin bpp f area a < ms := not_lt.mpr (h a (List.mem_cons_self a rest))
    simp only [scanMin, ha, if_false]
    exact ih (i + 1) ms idx (fun b hb => h b (List.mem_cons_of_mem a hb))

/-- C6. When every catalogue entry has a non-negative area as computed in `int`,
`_getMaximumFrameRate` selects no mode, whatever the target size and the bytes per pixel:
it returns false and does not assign the frame rate. -/
theorem getMaximumFrameRate_selects_nothing (c : Camera) (forFrameSize : FrameSize)
    (h : ∀ modes, c.supportedVideoModes = some modes →
      ∀ a ∈ modes, 0 ≤ toInt32 (a.frameSize.width * a.frameSize.height)) :
    _getMaximumFrameRate c forFrameSize = Outcome.failed := by
  unfold _getMaximumFrameRate _getSupportedVideoModes
  cases hm : c.supportedVideoModes with
  | none => rfl
  | some modes =>
    cases hb : _getBytesPerPixel c with
    | none => rfl
    | some bpp =>
      have hs := scanMin_unchanged bpp forFrameSize (areaOf forFrameSize) modes 0 0 (-1)
        (fun a ha => scoreMin_nonneg (h modes hm a ha))
      simp only [hs]
      split_ifs <;> first | rfl | simp at *

/-- C6, on a catalogue with the single entry 640x480 and the smaller target 320x240. -/
theorem getMaximumFrameRate_selects_nothing_witness :
    (∀ modes, (exampleCamera [⟨⟨640, 480⟩, ⟨30, 1⟩, 2⟩] twoBytesPerPixel).supportedVideoModes
        = some modes →
      ∀ a ∈ modes, 0 ≤ toInt32 (a.frameSize.width * a.frameSize.height))
    ∧ 320 * 240 < 640 * 480
    ∧ _getMaximumFrameRate (exampleCamera [⟨⟨640, 480⟩, ⟨30, 1⟩, 2⟩] twoBytesPerPixel) ⟨320, 240⟩
        = Outcome.failed :=
  have hyp : ∀ modes, (exampleCamera [⟨⟨640, 480⟩, ⟨30, 1⟩, 2⟩] twoBytesPerPixel).supportedVideoModes
        = some modes →
      ∀ a ∈ modes, 0 ≤ toInt32 (a.frameSize.width * a.frameSize.height) := by
    intro modes hm
    have e : some [(⟨⟨640, 480⟩, ⟨30, 1⟩, 2⟩ : SupportedVideoMode)] = some modes := hm
    injection e with e
    subst e
    decide
  ⟨hyp, by decide, getMaximumFrameRate_selects_nothing _ ⟨320, 240⟩ hyp⟩

/-! ## Frame rate and pixel counter: the claims -/

/-- What `_getFrameRate` does once the flag is clear and the four reads have succeeded. -/
theorem _getFrameRate_eq {c : Camera} {pixCount quadCount subFrameCount clockHz : Nat}
    (hf : _get c Reg.PIX_CNT_MAX_SET_FAILED = some 0)
    (hp : _get c Reg.PIX_CNT_MAX = some pixCount)
    (hq : _get c Reg.QUAD_CNT_MAX = some quadCount)
    (hs : _get c Reg.SUBFRAME_CNT_MAX = some subFrameCount)
    (hc : _getSystemClockFrequency c = some clockHz) :
    _getFrameRate c =
      if Nat.gcd ((clockHz * 1000000) % 2 ^ 32)
          (((pixCount * quadCount) % 2 ^ 32 * subFrameCount) % 2 ^ 32) = 0 then Outcome.undefined
      else Outcome.ok
        { numerator := (clockHz * 1000000) % 2 ^ 32
            / Nat.gcd ((clockHz * 1000000) % 2 ^ 32)
                (((pixCount * quadCount) % 2 ^ 32 * subFrameCount) % 2 ^ 32),
          denominator := ((pixCount * quadCount) % 2 ^ 32 * subFrameCount) % 2 ^ 32
            / Nat.gcd ((clockHz * 1000000) % 2 ^ 32)
                (((pixCount * quadCount) % 2 ^ 32 * subFrameCount) % 2 ^ 32) } := by
  unfold _getFrameRate
  simp only [hf, hp, hq, hs, hc, gcd]
  simp

/-- A rate returned by `_getFrameRate` comes from four successful reads and a non-zero
gcd. -/
theorem _getFrameRate_ok {c : Camera} {r : FrameRate} (h : _getFrameRate c = Outcome.ok r) :
    ∃ n d : Nat, Nat.gcd n d ≠ 0 ∧ r = { numerator := n / Nat.gcd n d,
                                         denominator := d / Nat.gcd n d } := by
  unfold _getFrameRate at h
  cases hf : _get c Reg.PIX_CNT_MAX_SET_FAILED with
  | none => simp [hf] at h
  | some f =>
    simp only [hf] at h
    by_cases hfz : f ≠ 0
    · simp [hfz] at h
    · simp only [hfz, if_false] at h
      cases hp : _get c Reg.PIX_CNT_MAX with
      | none => simp [hp] at h
      | some pixCount =>
        cases hq : _get c Reg.QUAD_CNT_MAX with
        | none => simp [hp, hq] at h
        | some quadCount =>
          cases hs : _get c Reg.SUBFRAME_CNT_MAX with
          | none => simp [hp, hq, hs] at h
          | some subFrameCount =>
            cases hc : _getSystemClockFrequency c with
            | none => simp [hp, hq, hs, hc] at h
            | some clockHz =>
              simp only [hp, hq, hs, hc, gcd] at h
              split_ifs at h with hg
              injection h with h
              exact ⟨_, _, hg, h.symm⟩

/-- C7. Every frame rate returned by `_getFrameRate` is in lowest terms. -/
theorem getFrameRate_lowest_terms (c : Camera) (r : FrameRate)
    (h : _getFrameRate c = Outcome.ok r) : Nat.gcd r.numerator r.denominator = 1 := by
  obtain ⟨n, d, hg, rfl⟩ := _getFrameRate_ok h
  exact Nat.coprime_div_gcd_div_gcd (Nat.pos_of_ne_zero hg)

/-- C7, on a camera with pixel count 100000, quad count 4, subframe count 4 and a 48 MHz
clock: the rate is 30/1. -/
theorem getFrameRate_lowest_terms_witness :
    _getFrameRate (clockCamera 48 (counters 100000 4 4)) = Outcome.ok ⟨30, 1⟩
    ∧ Nat.gcd 30 1 = 1 :=
  ⟨by decide, getFrameRate_lowest_terms (clockCamera 48 (counters 100000 4 4)) ⟨30, 1⟩
    (by decide)⟩

/-- Within 32 bits, `_getFrameRate` returns the exact products divided by their gcd. -/
theorem getFrameRate_exact_aux {c : Camera} {pixCount quadCount subFrameCount clockHz : Nat}
    (hf : _get c Reg.PIX_CNT_MAX_SET_FAILED = some 0)
    (hp : _get c Reg.PIX_CNT_MAX = some pixCount)
    (hq : _get c Reg.QUAD_CNT_MAX = some quadCount)
    (hs : _get c Reg.SUBFRAME_CNT_MAX = some subFrameCount)
    (hc : _getSystemClockFrequency c = some clockHz)
    (hn : clockHz * 10 ^ 6 < 2 ^ 32)
    (hd : pixCount * quadCount * subFrameCount < 2 ^ 32)
    (hnz : 0 < clockHz * 10 ^ 6 ∨ 0 < pixCount * quadCount * subFrameCount) :
    _getFrameRate c = Outcome.ok
      { numerator := clockHz * 10 ^ 6
          / Nat.gcd (clockHz * 10 ^ 6) (pixCount * quadCount * subFrameCount),
        denominator := pixCount * quadCount * subFrameCount
          / Nat.gcd (clockHz * 10 ^ 6) (pixCount * quadCount * subFrameCount) } := by
  have h1 : (clockHz * 1000000) % 2 ^ 32 = clockHz * 10 ^ 6 := by
    have : (10 : Nat) ^ 6 = 1000000 := by norm_num
    rw [this] at hn ⊢
    exact Nat.mod_eq_of_lt hn
  have h2 : ((pixCount * quadCount) % 2 ^ 32 * subFrameCount) % 2 ^ 32
      = pixCount * quadCount * subFrameCount := by
    rw [Nat.mod_mul_mod]
    exact Nat.mod_eq_of_lt hd
  have hg : Nat.gcd (clockHz * 10 ^ 6) (pixCount * quadCount * subFrameCount) ≠ 0 := by
    intro h0
    rcases hnz with h | h
    · exact absurd (Nat.eq_zero_of_gcd_eq_zero_left h0) (Nat.pos_iff_ne_zero.mp h)
    · exact absurd (Nat.eq_zero_of_gcd_eq_zero_right h0) (Nat.pos_iff_ne_zero.mp h)
  rw [_getFrameRate_eq hf hp hq hs hc, h1, h2, if_neg hg]

/-- C8, as amended: when the flag is clear and the reads succeed, and both products fit 32
bits and are not both zero, `_getFrameRate` returns the exact products divided by their
gcd. -/
theorem getFrameRate_exact (c : Camera) (pixCount quadCount subFrameCount clockHz : Nat)
    (hf : _get c Reg.PIX_CNT_MAX_SET_FAILED = some 0)
    (hp : _get c Reg.PIX_CNT_MAX = some pixCount)
    (hq : _get c Reg.QUAD_CNT_MAX = some quadCount)
    (hs : _get c Reg.SUBFRAME_CNT_MAX = some subFrameCount)
    (hc : _getSystemClockFrequency c = some clockHz)
    (hn : clockHz * 10 ^ 6 < 2 ^ 32)
    (hd : pixCount * quadCount * subFrameCount < 2 ^ 32)
    (hnz : 0 < clockHz * 10 ^ 6 ∨ 0 < pixCount * quadCount * subFrameCount) :
    _getFrameRate c = Outcome.ok
      { numerator := clockHz * 10 ^ 6
          / Nat.gcd (clockHz * 10 ^ 6) (pixCount * quadCount * subFrameCount),
        denominator := pixCount * quadCount * subFrameCount
          / Nat.gcd (clockHz * 10 ^ 6) (pixCount * quadCount * subFrameCount) } :=
  getFrameRate_exact_aux hf hp hq hs hc hn hd hnz

/-- C8, on a camera with pixel count 100000, quad count 4, subframe count 4 and a 48 MHz
clock. -/
theorem getFrameRate_exact_witness :
    _getFrameRate (clockCamera 48 (counters 100000 4 4)) = Outcome.ok
      { numerator := 48 * 10 ^ 6 / Nat.gcd (48 * 10 ^ 6) (100000 * 4 * 4),
        denominator := 100000 * 4 * 4 / Nat.gcd (48 * 10 ^ 6) (100000 * 4 * 4) } :=
  getFrameRate_exact (clockCamera 48 (counters 100000 4 4)) 100000 4 4 48 rfl rfl rfl rfl rfl
    (by decide) (by decide) (Or.inl (by decide))

/-- C8 fails as stated: with a clock of 5000 the 32-bit numerator wraps
(5000 x 10^6 mod 2^32 = 705032704), and with both products zero the gcd is zero and the
division does not return. -/
theorem getFrameRate_wraps :
    _getFrameRate (clockCamera 5000 (counters 1 1 1)) = Outcome.ok ⟨705032704, 1⟩
    ∧ 5000 * 10 ^ 6 / Nat.gcd (5000 * 10 ^ 6) (1 * 1 * 1) ≠ 705032704
    ∧ _getFrameRate (clockCamera 0 (counters 0 1 1)) = Outcome.undefined := by
  decide

theorem toInt64_natCast {n : Nat} (h : n < 2 ^ 63) : toInt64 (n : Int) = (n : Int) := by
  unfold toInt64
  have h0 : (0 : Int) ≤ (n : Int) := Int.ofNat_nonneg n
  have h1 : (n : Int) % 2 ^ 64 = (n : Int) := Int.emod_eq_of_lt h0 (by omega)
  rw [h1, Int.toNat_ofNat, if_pos h]

theorem toUInt32_natCast {n : Nat} (h : n < 2 ^ 32) : toUInt32 (n : Int) = n := by
  unfold toUInt32
  have h0 : (0 : Int) ≤ (n : Int) := Int.ofNat_nonneg n
  have h1 : (n : Int) % 2 ^ 32 = (n : Int) := Int.emod_eq_of_lt h0 (by omega)
  rw [h1, Int.toNat_ofNat]

/-- Within the range of `long` and `uint`, line 123 computes the exact floor. -/
theorem pixCountFor_exact (r : FrameRate) (quadCount subFrameCount clockHz : Nat)
    (hnum : r.numerator ≠ 0) (hq0 : quadCount ≠ 0) (hs0 : subFrameCount ≠ 0)
    (h1 : r.denominator * clockHz * 10 ^ 6 < 2 ^ 63)
    (h2 : quadCount * subFrameCount * r.numerator < 2 ^ 63)
    (h3 : r.denominator * clockHz * 10 ^ 6 / (quadCount * subFrameCount * r.numerator) < 2 ^ 32) :
    pixCountFor r quadCount subFrameCount clockHz
      = some (r.denominator * clockHz * 10 ^ 6 / (quadCount * subFrameCount * r.numerator)) := by
  have hten : (10 : Nat) ^ 6 = 1000000 := by norm_num
  rw [hten] at h1 h3 ⊢
  have hdc : r.denominator * clockHz < 2 ^ 63 :=
    lt_of_le_of_lt (Nat.le_mul_of_pos_right _ (by norm_num)) h1
  have hqs : quadCount * subFrameCount < 2 ^ 63 :=
    lt_of_le_of_lt (Nat.le_mul_of_pos_right _ (Nat.pos_of_ne_zero hnum)) h2
  have hdividend : toInt64 (toInt64 ((r.denominator : Int) * clockHz) * 1000000)
      = ((r.denominator * clockHz * 1000000 : Nat) : Int) := by
    rw [← Nat.cast_mul, toInt64_natCast hdc]
    have : ((r.denominator * clockHz : Nat) : Int) * 1000000
        = ((r.denominator * clockHz * 1000000 : Nat) : Int) := by push_cast; ring
    rw [this, toInt64_natCast h1]
  have hdivisor : toInt64 (toInt64 ((quadCount : Int) * subFrameCount) * r.numerator)
      = ((quadCount * subFrameCount * r.numerator : Nat) : Int) := by
    rw [← Nat.cast_mul, toInt64_natCast hqs, ← Nat.cast_mul, toInt64_natCast h2]
  have hpos : 0 < quadCount * subFrameCount * r.numerator :=
    Nat.mul_pos (Nat.mul_pos (Nat.pos_of_ne_zero hq0) (Nat.pos_of_ne_zero hs0))
      (Nat.pos_of_ne_zero hnum)
  have hguard : ¬ (((quadCount * subFrameCount * r.numerator : Nat) : Int) = 0
      ∨ (((r.denominator * clockHz * 1000000 : Nat) : Int) = -2 ^ 63
        ∧ ((quadCount * subFrameCount * r.numerator : Nat) : Int) = -1)) := by
    omega
  unfold pixCountFor
  simp only [hdividend, hdivisor, if_neg hguard]
  rw [← Int.ofNat_tdiv, toUInt32_natCast h3]

/-- C9, as amended: when the reads succeed, numerator, quad count and subframe count are
non-zero, both products fit a 64-bit `long` and the quotient fits 32 bits, the value
`_setFrameRate` writes to `PIX_CNT_MAX` is the exact floor of
denominator x clock x 10^6 / (quadCount x subframeCount x numerator). -/
theorem setFrameRate_writes_exact_count (c : Camera) (r : FrameRate)
    (quadCount subFrameCount clockHz : Nat)
    (hq : _get c Reg.QUAD_CNT_MAX = some quadCount)
    (hs : _get c Reg.SUBFRAME_CNT_MAX = some subFrameCount)
    (hc : _getSystemClockFrequency c = some clockHz)
    (hnum : r.numerator ≠ 0) (hq0 : quadCount ≠ 0) (hs0 : subFrameCount ≠ 0)
    (h1 : r.denominator * clockHz * 10 ^ 6 < 2 ^ 63)
    (h2 : quadCount * subFrameCount * r.numerator < 2 ^ 63)
    (h3 : r.denominator * clockHz * 10 ^ 6 / (quadCount * subFrameCount * r.numerator) < 2 ^ 32) :
    ∃ b c', _setFrameRate c r = some (b, c')
      ∧ c'.issued = c.issued ++ [Write.register Reg.PIX_CNT_MAX
          (r.denominator * clockHz * 10 ^ 6 / (quadCount * subFrameCount * r.numerator))]
      ∧ (c.writeOk Reg.PIX_CNT_MAX = true → c'.value Reg.PIX_CNT_MAX
          = r.denominator * clockHz * 10 ^ 6 / (quadCount * subFrameCount * r.numerator)) := by
  unfold _setFrameRate
  simp only [hq, hs, hc, pixCountFor_exact r quadCount subFrameCount clockHz hnum hq0 hs0 h1 h2 h3]
  by_cases hw : c.writeOk Reg.PIX_CNT_MAX = true
  · simp only [_set, hw, if_true]
    split
    · exact ⟨_, _, rfl, by simp, by simp⟩
    · split_ifs
      · exact ⟨_, _, rfl, by simp, by simp⟩
      · exact ⟨_, _, rfl, by simp, by simp⟩
  · simp only [_set, hw]
    exact ⟨_, _, rfl, by simp, by simp [hw]⟩

/-- C9, at 30/1 frames per second with quad count 4, subframe count 4 and a 48 MHz clock:
the count written is 100000. -/
theorem setFrameRate_writes_exact_count_witness :
    ∃ b c', _setFrameRate (clockCamera 48 (counters 0 4 4)) ⟨30, 1⟩ = some (b, c')
      ∧ c'.issued = (clockCamera 48 (counters 0 4 4)).issued ++ [Write.register Reg.PIX_CNT_MAX
          (1 * 48 * 10 ^ 6 / (4 * 4 * 30))]
      ∧ ((clockCamera 48 (counters 0 4 4)).writeOk Reg.PIX_CNT_MAX = true →
          c'.value Reg.PIX_CNT_MAX = 1 * 48 * 10 ^ 6 / (4 * 4 * 30)) :=
  setFrameRate_writes_exact_count (clockCamera 48 (counters 0 4 4)) ⟨30, 1⟩ 4 4 48 rfl rfl rfl
    (by decide) (by decide) (by decide) (by decide) (by decide) (by decide)

/-- C9 fails as stated: at 1/100 frames per second with a 48 MHz clock the exact count
4800000000 is truncated to 32 bits (505032704 is written); and at rate 3/4000000000 with a
clock of 4000 the product in `long` wraps, so that the count differs even from the
truncated exact quotient. -/
theorem setFrameRate_truncates_and_wraps :
    (_setFrameRate (clockCamera 48 (counters 0 1 1)) ⟨1, 100⟩).map (fun p => p.2.issued)
      = some [Write.register Reg.PIX_CNT_MAX 505032704]
    ∧ 100 * 48 * 10 ^ 6 / (1 * 1 * 1) = 4800000000
    ∧ pixCountFor ⟨3, 4000000000⟩ 1 1 4000 = some 2092957696
    ∧ 4000000000 * 4000 * 10 ^ 6 / (1 * 1 * 3) % 2 ^ 32 = 3524613461 := by
  decide

/-! ## Integration time: the round trip -/

set_option maxRecDepth 100000 in
/-- C10 at the value 3.0: `set` writes the raw count 1 and succeeds, the following `get`
returns 1.0 (the `uint` quotient 1*100/63), and the distance 2 exceeds the quantisation
step 100/63. -/
theorem integrationTime_round_trip_at_three :
    (IntegrationTimeParameter.set (exampleCamera [] twoBytesPerPixel) (Binary32.ofNat 3)).1 = true
    ∧ (IntegrationTimeParameter.set (exampleCamera [] twoBytesPerPixel) (Binary32.ofNat 3)).2.issued
        = [Write.register Reg.INTG_DUTY_CYCLE 1]
    ∧ IntegrationTimeParameter.get
        (IntegrationTimeParameter.set (exampleCamera [] twoBytesPerPixel) (Binary32.ofNat 3)).2
        false = Outcome.ok (Binary32.ofNat 1)
    ∧ 100 * 2 ^ 149 < 63 * (Binary32.ofNat 3 - Binary32.ofNat 1) := by
  decide

set_option maxRecDepth 100000 in
/-- C11 at the count written by `set(50)`: `set` writes the raw count 31, and the following
`get` returns 49.0, the `uint` quotient 3100/63, which is below the exact quotient
31 x 100 / 63. -/
theorem integrationTime_get_truncates :
    (IntegrationTimeParameter.set (exampleCamera [] twoBytesPerPixel) (Binary32.ofNat 50)).2.issued
        = [Write.register Reg.INTG_DUTY_CYCLE 31]
    ∧ IntegrationTimeParameter.get
        (IntegrationTimeParameter.set (exampleCamera [] twoBytesPerPixel) (Binary32.ofNat 50)).2
        false = Outcome.ok (Binary32.ofNat 49)
    ∧ 63 * Binary32.ofNat 49 < 31 * 100 * 2 ^ 149 := by
  decide

/-! ## Integration time: validation and failure reporting -/

/-- C12. For every value below 0 or above 100, `set` returns false and leaves the camera,
including the list of issued writes, exactly as it was. -/
theorem integrationTime_set_out_of_range (c : Camera) (value : Binary32)
    (h : value < 0 ∨ value > Binary32.ofNat 100) :
    IntegrationTimeParameter.set c value = (false, c) := by
  have hv : IntegrationTimeParameter.validate value = false := by
    unfold IntegrationTimeParameter.validate
    rw [decide_eq_false_iff_not]
    intro hin
    rcases h with h | h
    · exact absurd hin.1 (not_le.mpr h)
    · exact absurd hin.2 (not_le.mpr h)
  unfold IntegrationTimeParameter.set
  simp only [hv, Bool.not_false, if_true]

set_option maxRecDepth 100000 in
/-- C12, at the values -1 and 101. -/
theorem integrationTime_set_out_of_range_witness :
    IntegrationTimeParameter.set (exampleCamera [] twoBytesPerPixel) (-(Binary32.ofNat 1))
        = (false, exampleCamera [] twoBytesPerPixel)
    ∧ IntegrationTimeParameter.set (exampleCamera [] twoBytesPerPixel) (Binary32.ofNat 101)
        = (false, exampleCamera [] twoBytesPerPixel) :=
  ⟨integrationTime_set_out_of_range _ _ (Or.inl (by decide)),
    integrationTime_set_out_of_range _ _ (Or.inr (by decide))⟩

/-- C13. For a value in range, `set` returns true exactly when the write of the raw count is
accepted and the read of the set-failed flag that follows it succeeds and yields false. -/
theorem integrationTime_set_success_iff (c : Camera) (value : Binary32)
    (h : IntegrationTimeParameter.validate value = true) :
    (IntegrationTimeParameter.set c value).1 = true
      ↔ (_set c Reg.INTG_DUTY_CYCLE (IntegrationTimeParameter.toDutyCycle value)).1 = true
        ∧ _get (_set c Reg.INTG_DUTY_CYCLE (IntegrationTimeParameter.toDutyCycle value)).2
            Reg.INTG_DUTY_CYCLE_SET_FAILED = some 0 := by
  unfold IntegrationTimeParameter.set
  simp only [h, Bool.not_true, Bool.false_eq_true, if_false]
  rcases hset : _set c Reg.INTG_DUTY_CYCLE (IntegrationTimeParameter.toDutyCycle value)
    with ⟨b, c1⟩
  cases b with
  | false => simp
  | true =>
    cases hget : _get c1 Reg.INTG_DUTY_CYCLE_SET_FAILED with
    | none => simp [hget]
    | some f =>
      by_cases hf : f = 0
      · simp [hget, hf]
      · simp [hget, hf]

set_option maxRecDepth 100000 in
/-- C13, at the value 50 on a camera whose registers accept every write. -/
theorem integrationTime_set_success_iff_witness :
    IntegrationTimeParameter.validate (Binary32.ofNat 50) = true
    ∧ ((IntegrationTimeParameter.set (exampleCamera [] twoBytesPerPixel) (Binary32.ofNat 50)).1
        = true
      ↔ (_set (exampleCamera [] twoBytesPerPixel) Reg.INTG_DUTY_CYCLE
            (IntegrationTimeParameter.toDutyCycle (Binary32.ofNat 50))).1 = true
        ∧ _get (_set (exampleCamera [] twoBytesPerPixel) Reg.INTG_DUTY_CYCLE
            (IntegrationTimeParameter.toDutyCycle (Binary32.ofNat 50))).2
            Reg.INTG_DUTY_CYCLE_SET_FAILED = some 0) :=
  ⟨by decide, integrationTime_set_success_iff _ _ (by decide)⟩

/-- C14. `get` returns a value exactly when the read of the raw count succeeds and the read
of the set-failed flag succeeds and yields false; in every other case it returns false and
assigns nothing. -/
theorem integrationTime_get_value_iff (c : Camera) (refresh : Bool) :
    ((∃ v, IntegrationTimeParameter.get c refresh = Outcome.ok v)
      ↔ (∃ d, _get c Reg.INTG_DUTY_CYCLE = some d)
        ∧ _get c Reg.INTG_DUTY_CYCLE_SET_FAILED = some 0)
    ∧ ((¬ ∃ v, IntegrationTimeParameter.get c refresh = Outcome.ok v)
      → IntegrationTimeParameter.get c refresh = Outcome.failed) := by
  unfold IntegrationTimeParameter.get
  cases hd : _get c Reg.INTG_DUTY_CYCLE with
  | none => simp
  | some d =>
    cases hf : _get c Reg.INTG_DUTY_CYCLE_SET_FAILED with
    | none => simp
    | some f =>
      by_cases hz : f = 0
      · simp [hz]
      · simp [hz]

/-- C15. When `BINNING_EN` reads false, `_getBinning` returns (1, 1), whatever the
merge-factor registers hold and whether or not they can be read. -/
theorem getBinning_disabled (c : Camera) (h : _get c Reg.BINNING_EN = some 0) :
    _getBinning c = Outcome.ok (1, 1) := by
  unfold _getBinning
  simp only [h, if_true]

/-- C15, on a camera whose merge-factor registers hold 7 and cannot be read. -/
theorem getBinning_disabled_witness :
    _get binningOffCamera Reg.BINNING_EN = some 0
    ∧ _get binningOffCamera Reg.BIN_ROWS_TO_MERGE = none
    ∧ binningOffCamera.value Reg.BIN_COLS_TO_MERGE = 7
    ∧ _getBinning binningOffCamera = Outcome.ok (1, 1) :=
  ⟨rfl, rfl, rfl, getBinning_disabled binningOffCamera rfl⟩

/-! ## Binning: the write sequence -/

theorem _setBinning_eq_writeAll (c : Camera) (rows cols : Nat) (fs : FrameSize) :
    _setBinning c rows cols fs = writeAll c (binningWrites rows cols fs) := by
  unfold _setBinning binningWrites
  simp only [writeAll]

theorem writeAll_cons_of_ok {c : Camera} {p : Reg × Nat} (rest : List (Reg × Nat))
    (h : c.writeOk p.1 = true) :
    writeAll c (p :: rest) = writeAll (_set c p.1 p.2).2 rest := by
  have e := _set_eq_of_writeOk p.2 h
  generalize (_set c p.1 p.2).2 = c1 at e ⊢
  simp only [writeAll, e]

theorem writeAll_cons_of_fail {c : Camera} {p : Reg × Nat} (rest : List (Reg × Nat))
    (h : c.writeOk p.1 = false) :
    writeAll c (p :: rest) = (false, (_set c p.1 p.2).2) := by
  have h1 : (_set c p.1 p.2).1 = false := by rw [_set_fst, h]
  have e : _set c p.1 p.2 = (false, (_set c p.1 p.2).2) := Prod.ext h1 rfl
  generalize (_set c p.1 p.2).2 = c1 at e ⊢
  simp only [writeAll, e]

theorem _set_store (c : Camera) (r : Reg) (v : Nat) (h : c.writeOk r = true) :
    (_set c r v).2.value = fun x => if x = r then v else c.value x := by
  funext x
  rw [_set_value]
  by_cases hx : x = r
  · simp [h, hx]
  · simp [hx]

/-- The chain returns true exactly when every register of the list accepts writes. -/
theorem writeAll_fst : ∀ (ws : List (Reg × Nat)) (c : Camera),
    (writeAll c ws).1 = true ↔ ∀ p ∈ ws, c.writeOk p.1 = true := by
  intro ws
  induction ws with
  | nil => intro c; simp [writeAll]
  | cons p rest ih =>
    intro c
    by_cases h : c.writeOk p.1 = true
    · rw [writeAll_cons_of_ok rest h, ih, (_set_frame c p.1 p.2).2.2.1]
      constructor
      · intro hall q hq
        rcases List.mem_cons.mp hq with rfl | hq
        · exact h
        · exact hall q hq
      · intro hall q hq
        exact hall q (List.mem_cons_of_mem p hq)
    · have hf : c.writeOk p.1 = false := by simpa using h
      rw [writeAll_cons_of_fail rest hf]
      constructor
      · intro hc; exact absurd hc (by simp)
      · intro hall; exact absurd (hall p (List.mem_cons_self p rest)) h

/-- When every write of a list is accepted, all are issued in order and stored. -/
theorem writeAll_of_ok : ∀ (ws : List (Reg × Nat)) (c : Camera),
    (∀ p ∈ ws, c.writeOk p.1 = true) →
    (writeAll c ws).1 = true ∧ (writeAll c ws).2.issued = c.issued ++ ws.map asWrite
      ∧ (writeAll c ws).2.value = store c.value ws
      ∧ (writeAll c ws).2.writeOk = c.writeOk := by
  intro ws
  induction ws with
  | nil => intro c _; simp [writeAll, store]
  | cons p rest ih =>
    intro c hall
    have h : c.writeOk p.1 = true := hall p (List.mem_cons_self p rest)
    obtain ⟨_, _, hwo, _, _, _, _, _, hiss⟩ := _set_frame c p.1 p.2
    have hrest : ∀ q ∈ rest, (_set c p.1 p.2).2.writeOk q.1 = true := by
      intro q hq
      rw [hwo]
      exact hall q (List.mem_cons_of_mem p hq)
    obtain ⟨h1, h2, h3, h4⟩ := ih (_set c p.1 p.2).2 hrest
    rw [writeAll_cons_of_ok rest h]
    refine ⟨h1, ?_, ?_, h4.trans hwo⟩
    · rw [h2, hiss]
      simp [asWrite]
    · rw [h3, _set_store c p.1 p.2 h]
      rfl

/-- When the write `p` is the first to be rejected, the chain returns false, the writes up
to and including `p` are the only ones issued, and the writes before `p` are stored. -/
theorem writeAll_first_failure (c : Camera) (pre post : List (Reg × Nat)) (p : Reg × Nat)
    (hpre : ∀ q ∈ pre, c.writeOk q.1 = true) (hp : c.writeOk p.1 = false) :
    (writeAll c (pre ++ p :: post)).1 = false
      ∧ (writeAll c (pre ++ p :: post)).2.issued = c.issued ++ (pre ++ [p]).map asWrite
      ∧ (writeAll c (pre ++ p :: post)).2.value = store c.value pre := by
  induction pre generalizing c with
  | nil =>
    rw [List.nil_append, writeAll_cons_of_fail post hp]
    obtain ⟨_, _, _, _, _, _, _, _, hiss⟩ := _set_frame c p.1 p.2
    refine ⟨rfl, by rw [hiss]; simp [asWrite], ?_⟩
    funext x
    rw [_set_value]
    simp [hp, store]
  | cons q rest ih =>
    have h : c.writeOk q.1 = true := hpre q (List.mem_cons_self q rest)
    obtain ⟨_, _, hwo, _, _, _, _, _, hiss⟩ := _set_frame c q.1 q.2
    have hrest : ∀ x ∈ rest, (_set c q.1 q.2).2.writeOk x.1 = true := by
      intro x hx
      rw [hwo]
      exact hpre x (List.mem_cons_of_mem q hx)
    obtain ⟨h1, h2, h3⟩ := ih (_set c q.1 q.2).2 hrest (by rw [hwo]; exact hp)
    rw [List.cons_append, writeAll_cons_of_ok _ h]
    refine ⟨h1, ?_, ?_⟩
    · rw [h2, hiss]
      simp [asWrite]
    · rw [h3, _set_store c q.1 q.2 h]
      rfl

/-- Stored values: a register outside the list keeps its value; with distinct registers,
each register of the list holds the value written to it. -/
theorem store_spec : ∀ (ws : List (Reg × Nat)) (regs : Reg → Nat),
    (∀ r, r ∉ ws.map Prod.fst → store regs ws r = regs r)
    ∧ ((ws.map Prod.fst).Nodup → ∀ q ∈ ws, store regs ws q.1 = q.2) := by
  intro ws
  induction ws with
  | nil => intro regs; simp [store]
  | cons p rest ih =>
    intro regs
    obtain ⟨ih1, ih2⟩ := ih (fun x => if x = p.1 then p.2 else regs x)
    constructor
    · intro r hr
      have hr1 : r ≠ p.1 := fun e => hr (by simp [e])
      have hr2 : r ∉ rest.map Prod.fst := fun e => hr (by simp at e ⊢; exact Or.inr e)
      show store (fun x => if x = p.1 then p.2 else regs x) rest r = regs r
      rw [ih1 r hr2]
      simp [hr1]
    · intro hnd q hq
      rw [List.map_cons, List.nodup_cons] at hnd
      show store (fun x => if x = p.1 then p.2 else regs x) rest q.1 = q.2
      rcases List.mem_cons.mp hq with rfl | hq
      · rw [ih1 q.1 hnd.1]
        simp
      · exact ih2 hnd.2 q hq

/-- C18. `_setBinning` issues its writes in the order rows-to-merge, columns-to-merge, row
count, column count, enable flag. It returns true exactly when all five are accepted, and
all five are then issued. When the write `p` is the first to be rejected (`pre` before it,
`post` after it), it returns false, the issued writes are those of `pre` and `p` and none of
`post`, every write of `pre` stays stored, and every other register is unchanged. -/
theorem setBinning_sequence (c : Camera) (rows cols : Nat) (fs : FrameSize) :
    binningWrites rows cols fs
        = [(Reg.BIN_ROWS_TO_MERGE, rows), (Reg.BIN_COLS_TO_MERGE, cols),
            (Reg.BIN_ROW_COUNT, fs.height), (Reg.BIN_COLUMN_COUNT, fs.width),
            (Reg.BINNING_EN, 1)]
    ∧ ((_setBinning c rows cols fs).1 = true
        ↔ ∀ p ∈ binningWrites rows cols fs, c.writeOk p.1 = true)
    ∧ ((_setBinning c rows cols fs).1 = true →
        (_setBinning c rows cols fs).2.issued
          = c.issued ++ (binningWrites rows cols fs).map asWrite)
    ∧ ∀ pre p post, binningWrites rows cols fs = pre ++ p :: post →
        (∀ q ∈ pre, c.writeOk q.1 = true) → c.writeOk p.1 = false →
        (_setBinning c rows cols fs).1 = false
        ∧ (_setBinning c rows cols fs).2.issued = c.issued ++ (pre ++ [p]).map asWrite
        ∧ (∀ q ∈ pre, (_setBinning c rows cols fs).2.value q.1 = q.2)
        ∧ ∀ r, r ∉ pre.map Prod.fst → (_setBinning c rows cols fs).2.value r = c.value r := by
  rw [_setBinning_eq_writeAll]
  refine ⟨rfl, writeAll_fst _ c, ?_, ?_⟩
  · intro h
    exact (writeAll_of_ok _ c ((writeAll_fst _ c).mp h)).2.1
  · intro pre p post hsplit hpre hp
    have hnd : ((binningWrites rows cols fs).map Prod.fst).Nodup := by
      have hregs : (binningWrites rows cols fs).map Prod.fst
          = [Reg.BIN_ROWS_TO_MERGE, Reg.BIN_COLS_TO_MERGE, Reg.BIN_ROW_COUNT,
              Reg.BIN_COLUMN_COUNT, Reg.BINNING_EN] := rfl
      rw [hregs]
      decide
    rw [hsplit] at hnd ⊢
    obtain ⟨h1, h2, h3⟩ := writeAll_first_failure c pre post p hpre hp
    obtain ⟨s1, s2⟩ := store_spec pre c.value
    have hndpre : (pre.map Prod.fst).Nodup := by
      rw [List.map_append] at hnd
      exact (List.nodup_append.mp hnd).1
    refine ⟨h1, h2, ?_, ?_⟩
    · intro q hq
      rw [h3]
      exact s2 hndpre q hq
    · intro r hr
      rw [h3]
      exact s1 r hr

/-- C18, on a camera that rejects the write of the row count (the third write): the first
two writes are stored, the third is issued and fails, the last two are not issued. -/
theorem setBinning_sequence_witness :
    binningWrites 2 2 ⟨640, 480⟩
        = [(Reg.BIN_ROWS_TO_MERGE, 2), (Reg.BIN_COLS_TO_MERGE, 2)]
            ++ (Reg.BIN_ROW_COUNT, 480) :: [(Reg.BIN_COLUMN_COUNT, 640), (Reg.BINNING_EN, 1)]
    ∧ (_setBinning (rejectingCamera Reg.BIN_ROW_COUNT) 2 2 ⟨640, 480⟩).1 = false
    ∧ (_setBinning (rejectingCamera Reg.BIN_ROW_COUNT) 2 2 ⟨640, 480⟩).2.issued
        = (rejectingCamera Reg.BIN_ROW_COUNT).issued
          ++ ([(Reg.BIN_ROWS_TO_MERGE, 2), (Reg.BIN_COLS_TO_MERGE, 2)]
              ++ [(Reg.BIN_ROW_COUNT, 480)]).map asWrite
    ∧ (∀ q ∈ [(Reg.BIN_ROWS_TO_MERGE, 2), (Reg.BIN_COLS_TO_MERGE, 2)],
        (_setBinning (rejectingCamera Reg.BIN_ROW_COUNT) 2 2 ⟨640, 480⟩).2.value q.1 = q.2)
    ∧ ∀ r, r ∉ [(Reg.BIN_ROWS_TO_MERGE, 2), (Reg.BIN_COLS_TO_MERGE, 2)].map Prod.fst →
        (_setBinning (rejectingCamera Reg.BIN_ROW_COUNT) 2 2 ⟨640, 480⟩).2.value r
          = (rejectingCamera Reg.BIN_ROW_COUNT).value r :=
  ⟨rfl, (setBinning_sequence (rejectingCamera Reg.BIN_ROW_COUNT) 2 2 ⟨640, 480⟩).2.2.2
    [(Reg.BIN_ROWS_TO_MERGE, 2), (Reg.BIN_COLS_TO_MERGE, 2)] (Reg.BIN_ROW_COUNT, 480)
    [(Reg.BIN_COLUMN_COUNT, 640), (Reg.BINNING_EN, 1)] rfl (by decide) rfl⟩

/-- The writes issued by a chain are those that were issued before, followed by an initial
part of the list. -/
theorem writeAll_issued_prefix : ∀ (ws : List (Reg × Nat)) (c : Camera),
    ∃ pre post, ws = pre ++ post ∧ (writeAll c ws).2.issued = c.issued ++ pre.map asWrite := by
  intro ws
  induction ws with
  | nil => intro c; exact ⟨[], [], rfl, by simp [writeAll]⟩
  | cons p rest ih =>
    intro c
    obtain ⟨_, _, _, _, _, _, _, _, hiss⟩ := _set_frame c p.1 p.2
    by_cases h : c.writeOk p.1 = true
    · obtain ⟨pre, post, hsplit, hi⟩ := ih (_set c p.1 p.2).2
      refine ⟨p :: pre, post, by rw [hsplit]; rfl, ?_⟩
      rw [writeAll_cons_of_ok rest h, hi, hiss]
      simp [asWrite]
    · have hf : c.writeOk p.1 = false := by simpa using h
      refine ⟨[p], rest, rfl, ?_⟩
      rw [writeAll_cons_of_fail rest hf, hiss]
      simp [asWrite]

theorem _setStreamerFrameSize_issued (c : Camera) (s : FrameSize) :
    (_setStreamerFrameSize c s).2.issued = c.issued ++ [Write.streamer s] := by
  unfold _setStreamerFrameSize
  split_ifs <;> rfl

/-! ## Frame-size negotiation: binning is well defined -/

theorem toInt32_pos_ne_zero {n : Nat} (h : 0 < toInt32 n) : n ≠ 0 := by
  intro h0
  subst h0
  exact absurd h (by decide)

/-- Lines 200-226 never index the catalogue out of range. -/
theorem nearestFrameSize_ne_undefined (bpp : Nat) (toSet : FrameSize)
    (modes : List SupportedVideoMode) : nearestFrameSize bpp toSet modes ≠ Outcome.undefined := by
  unfold nearestFrameSize
  by_cases hlen : modes.length > 0
  · simp only [hlen, if_true]
    rcases scanModes_init bpp toSet (areaOf toSet) modes with ⟨hneg, _⟩ | ⟨k, a, hk, hidx, _, _, _⟩
    · simp [hneg]
    · have hnn : ¬ ((k : Int) < 0) := not_lt.mpr (Int.ofNat_nonneg k)
      simp only [hidx, hnn, if_false, Int.toNat_ofNat, hk]
      exact fun h => Outcome.noConfusion h
  · simp only [hlen, if_false]
    exact fun h => Outcome.noConfusion h

/-- For a desired size and a working ROI with positive sides, the chosen size has non-zero
sides and both merge factors are at least 1. -/
theorem nearestFrameSize_pos {s : FrameSize} {roi : RegionOfInterest} {bpp : Nat}
    {modes : List SupportedVideoMode} {toSet : FrameSize}
    (hs : 0 < s.width ∧ 0 < s.height) (hr : 0 < roi.width ∧ 0 < roi.height)
    (hn : nearestFrameSize bpp (clampToROI s roi) modes = Outcome.ok toSet) :
    toSet.width ≠ 0 ∧ toSet.height ≠ 0
      ∧ 1 ≤ roi.height / toSet.height ∧ 1 ≤ roi.width / toSet.width := by
  obtain ⟨_, hw2, _, hh2⟩ := clampToROI_le s roi
  have key : 0 < toSet.width ∧ 0 < toSet.height ∧ toSet.width ≤ roi.width
      ∧ toSet.height ≤ roi.height := by
    rcases nearestFrameSize_ok hn with ⟨_, rfl⟩ | ⟨k, a, _, rfl, _, hpos, _, _⟩
    · refine ⟨?_, ?_, hw2, hh2⟩
      · unfold clampToROI
        dsimp only
        split_ifs
        · exact hs.1
        · exact hr.1
      · unfold clampToROI
        dsimp only
        split_ifs
        · exact hs.2
        · exact hr.2
    · obtain ⟨_, haw, hah, _, hsc⟩ := scoreA_pos hpos
      rw [hsc] at hpos
      have hne := toInt32_pos_ne_zero hpos
      have hwpos : 0 < a.frameSize.width :=
        Nat.pos_of_ne_zero (fun h0 => hne (by rw [h0, Nat.zero_mul]))
      have hhpos : 0 < a.frameSize.height :=
        Nat.pos_of_ne_zero (fun h0 => hne (by rw [h0, Nat.mul_zero]))
      exact ⟨hwpos, hhpos, le_trans haw hw2, le_trans hah hh2⟩
  obtain ⟨k1, k2, k3, k4⟩ := key
  exact ⟨Nat.pos_iff_ne_zero.mp k1, Nat.pos_iff_ne_zero.mp k2, Nat.div_pos k4 k2,
    Nat.div_pos k3 k1⟩

/-- Every write issued by lines 185-244 is a binning write for the chosen size or the
streamer update for it. -/
theorem _setFrameSizeWithROI_issued {c c' : Camera} {s : FrameSize} {roi : RegionOfInterest}
    {b : Bool} (h : _setFrameSizeWithROI c s roi = some (b, c')) :
    c'.issued = c.issued
    ∨ ∃ modes bpp toSet, c.supportedVideoModes = some modes ∧ _getBytesPerPixel c = some bpp
        ∧ nearestFrameSize bpp (clampToROI s roi) modes = Outcome.ok toSet
        ∧ ∀ w ∈ c'.issued, w ∈ c.issued
            ∨ w ∈ (binningWrites (roi.height / toSet.height) (roi.width / toSet.width)
                toSet).map asWrite
            ∨ w = Write.streamer toSet := by
  unfold _setFrameSizeWithROI _getSupportedVideoModes at h
  cases hm : c.supportedVideoModes with
  | none =>
    simp only [hm] at h
    injection h with h
    injection h with _ h
    exact Or.inl (by rw [h])
  | some modes =>
    cases hb : _getBytesPerPixel c with
    | none =>
      simp only [hm, hb] at h
      injection h with h
      injection h with _ h
      exact Or.inl (by rw [h])
    | some bpp =>
      cases hn : nearestFrameSize bpp (clampToROI s roi) modes with
      | undefined => simp [hm, hb, hn] at h
      | failed =>
        simp only [hm, hb, hn] at h
        injection h with h
        injection h with _ h
        exact Or.inl (by rw [h])
      | ok toSet =>
        simp only [hm, hb, hn] at h
        by_cases hz : toSet.height = 0 ∨ toSet.width = 0
        · simp [hz] at h
        · simp only [hz, if_false] at h
          right
          refine ⟨modes, bpp, toSet, rfl, rfl, hn, ?_⟩
          obtain ⟨pre, post, hsplit, hiss⟩ := writeAll_issued_prefix
            (binningWrites (roi.height / toSet.height) (roi.width / toSet.width) toSet) c
          rw [← _setBinning_eq_writeAll] at hiss
          have hsub : ∀ w ∈ pre.map asWrite,
              w ∈ (binningWrites (roi.height / toSet.height) (roi.width / toSet.width)
                toSet).map asWrite := by
            intro w hw
            rw [hsplit, List.map_append]
            exact List.mem_append_left _ hw
          rcases hbin : _setBinning c (roi.height / toSet.height) (roi.width / toSet.width) toSet
            with ⟨b1, c1⟩
          rw [hbin] at hiss
          simp only [hbin] at h
          cases b1 with
          | false =>
            simp only [Option.some.injEq, Prod.mk.injEq] at h
            obtain ⟨_, rfl⟩ := h
            intro w hw
            rw [hiss] at hw
            rcases List.mem_append.mp hw with hw | hw
            · exact Or.inl hw
            · exact Or.inr (Or.inl (hsub w hw))
          | true =>
            have hst := _setStreamerFrameSize_issued c1 toSet
            rcases hres : _setStreamerFrameSize c1 toSet with ⟨b2, c2⟩
            rw [hres] at hst
            simp only [hres] at h
            have hc2 : c' = c2 := by
              cases b2 with
              | false =>
                simp only [Option.some.injEq, Prod.mk.injEq] at h
                exact h.2.symm
              | true =>
                simp only [Option.some.injEq, Prod.mk.injEq] at h
                exact h.2.symm
            subst hc2
            intro w hw
            rw [hst, hiss] at hw
            rcases List.mem_append.mp hw with hw | hw
            · rcases List.mem_append.mp hw with hw | hw
              · exact Or.inl hw
              · exact Or.inr (Or.inl (hsub w hw))
            · exact Or.inr (Or.inr (List.mem_singleton.mp hw))

/-- C16. For a desired size and a working ROI with positive sides, lines 185-244 always
return (no division by zero); whenever a size is chosen its sides are non-zero and both
merge factors are at least 1; and every write to a merge-factor register issued by the call
carries a value of at least 1. -/
theorem setFrameSize_binning_well_defined (c : Camera) (s : FrameSize) (roi : RegionOfInterest)
    (hs : 0 < s.width ∧ 0 < s.height) (hr : 0 < roi.width ∧ 0 < roi.height) :
    _setFrameSizeWithROI c s roi ≠ none
    ∧ (∀ bpp modes toSet, nearestFrameSize bpp (clampToROI s roi) modes = Outcome.ok toSet →
        toSet.width ≠ 0 ∧ toSet.height ≠ 0
          ∧ 1 ≤ roi.height / toSet.height ∧ 1 ≤ roi.width / toSet.width)
    ∧ ∀ b c', _setFrameSizeWithROI c s roi = some (b, c') →
        (∀ v, Write.register Reg.BIN_ROWS_TO_MERGE v ∈ c'.issued →
          Write.register Reg.BIN_ROWS_TO_MERGE v ∈ c.issued ∨ 1 ≤ v)
        ∧ ∀ v, Write.register Reg.BIN_COLS_TO_MERGE v ∈ c'.issued →
          Write.register Reg.BIN_COLS_TO_MERGE v ∈ c.issued ∨ 1 ≤ v := by
  refine ⟨?_, fun bpp modes toSet hn => nearestFrameSize_pos hs hr hn, ?_⟩
  · unfold _setFrameSizeWithROI _getSupportedVideoModes
    cases hm : c.supportedVideoModes with
    | none => simp
    | some modes =>
      cases hb : _getBytesPerPixel c with
      | none => simp
      | some bpp =>
        cases hn : nearestFrameSize bpp (clampToROI s roi) modes with
        | undefined => exact absurd hn (nearestFrameSize_ne_undefined _ _ _)
        | failed => simp [hn]
        | ok toSet =>
          obtain ⟨hw, hh, _, _⟩ := nearestFrameSize_pos hs hr hn
          have hz : ¬ (toSet.height = 0 ∨ toSet.width = 0) := not_or.mpr ⟨hh, hw⟩
          simp only [hn, if_neg hz]
          rcases hbin : _setBinning c (roi.height / toSet.height) (roi.width / toSet.width)
            toSet with ⟨b1, c1⟩
          cases b1 with
          | false => simp
          | true =>
            rcases hst : _setStreamerFrameSize c1 toSet with ⟨b2, c2⟩
            cases b2 <;> simp [hst]
  · intro b c' h
    rcases _setFrameSizeWithROI_issued h with heq | ⟨modes, bpp, toSet, _, _, hn, hall⟩
    · rw [heq]
      exact ⟨fun v hv => Or.inl hv, fun v hv => Or.inl hv⟩
    · obtain ⟨_, _, hrows, hcols⟩ := nearestFrameSize_pos hs hr hn
      constructor
      · intro v hv
        rcases hall _ hv with h1 | h1 | h1
        · exact Or.inl h1
        · right
          simp [binningWrites, asWrite] at h1
          rw [h1]
          exact hrows
        · exact Write.noConfusion h1
      · intro v hv
        rcases hall _ hv with h1 | h1 | h1
        · exact Or.inl h1
        · right
          simp [binningWrites, asWrite] at h1
          rw [h1]
          exact hcols
        · exact Write.noConfusion h1

/-- C16, at desired 600x400 on the 1280x960 ROI of `exampleCamera vgaCatalogue`. -/
theorem setFrameSize_binning_well_defined_witness :
    _setFrameSizeWithROI (exampleCamera vgaCatalogue twoBytesPerPixel) ⟨600, 400⟩
        ⟨0, 0, 1280, 960⟩ ≠ none
    ∧ (∀ bpp modes toSet,
        nearestFrameSize bpp (clampToROI ⟨600, 400⟩ ⟨0, 0, 1280, 960⟩) modes = Outcome.ok toSet →
        toSet.width ≠ 0 ∧ toSet.height ≠ 0 ∧ 1 ≤ 960 / toSet.height ∧ 1 ≤ 1280 / toSet.width)
    ∧ ∀ b c', _setFrameSizeWithROI (exampleCamera vgaCatalogue twoBytesPerPixel) ⟨600, 400⟩
          ⟨0, 0, 1280, 960⟩ = some (b, c') →
        (∀ v, Write.register Reg.BIN_ROWS_TO_MERGE v ∈ c'.issued →
          Write.register Reg.BIN_ROWS_TO_MERGE v
            ∈ (exampleCamera vgaCatalogue twoBytesPerPixel).issued ∨ 1 ≤ v)
        ∧ ∀ v, Write.register Reg.BIN_COLS_TO_MERGE v ∈ c'.issued →
          Write.register Reg.BIN_COLS_TO_MERGE v
            ∈ (exampleCamera vgaCatalogue twoBytesPerPixel).issued ∨ 1 ≤ v :=
  setFrameSize_binning_well_defined (exampleCamera vgaCatalogue twoBytesPerPixel) ⟨600, 400⟩
    ⟨0, 0, 1280, 960⟩ ⟨by decide, by decide⟩ ⟨by decide, by decide⟩

/-! ## The streaming gate on the other operations -/

/-- What `_setFrameRate` does once its three reads have succeeded and line 123 has produced
a pixel count: the count is written to `PIX_CNT_MAX`, whatever the streaming state. -/
theorem _setFrameRate_of_pixCount {c : Camera} {r : FrameRate}
    {quadCount subFrameCount clockHz pixCount : Nat}
    (hq : _get c Reg.QUAD_CNT_MAX = some quadCount)
    (hs : _get c Reg.SUBFRAME_CNT_MAX = some subFrameCount)
    (hc : _getSystemClockFrequency c = some clockHz)
    (hp : pixCountFor r quadCount subFrameCount clockHz = some pixCount) :
    ∃ b c', _setFrameRate c r = some (b, c')
      ∧ c'.issued = c.issued ++ [Write.register Reg.PIX_CNT_MAX pixCount] := by
  unfold _setFrameRate
  simp only [hq, hs, hc, hp]
  obtain ⟨_, _, _, _, _, _, _, _, hiss⟩ := _set_frame c Reg.PIX_CNT_MAX pixCount
  rcases hset : _set c Reg.PIX_CNT_MAX pixCount with ⟨b1, c1⟩
  rw [hset] at hiss
  cases b1 with
  | false => exact ⟨_, _, rfl, hiss⟩
  | true =>
    simp only []
    cases _get c1 Reg.PIX_CNT_MAX_SET_FAILED with
    | none => exact ⟨_, _, rfl, hiss⟩
    | some f =>
      simp only []
      split_ifs
      · exact ⟨_, _, rfl, hiss⟩
      · exact ⟨_, _, rfl, hiss⟩

/-- C17, as amended: `_setBinning` and `_setFrameRate` do not consult the streaming state.
While the camera is streaming, `_setBinning` issues the write of the rows-to-merge register
first and returns true exactly when its five writes are accepted, and `_setFrameRate`, once
its three reads have succeeded and the pixel count is defined, issues the write of
`PIX_CNT_MAX`. -/
theorem setBinning_setFrameRate_while_streaming (c : Camera) (h : isRunning c = true)
    (rows cols : Nat) (fs : FrameSize) (r : FrameRate) :
    (∃ rest, (_setBinning c rows cols fs).2.issued
        = c.issued ++ Write.register Reg.BIN_ROWS_TO_MERGE rows :: rest)
    ∧ ((_setBinning c rows cols fs).1 = true
        ↔ ∀ p ∈ binningWrites rows cols fs, c.writeOk p.1 = true)
    ∧ ∀ quadCount subFrameCount clockHz pixCount,
        _get c Reg.QUAD_CNT_MAX = some quadCount →
        _get c Reg.SUBFRAME_CNT_MAX = some subFrameCount →
        _getSystemClockFrequency c = some clockHz →
        pixCountFor r quadCount subFrameCount clockHz = some pixCount →
        ∃ b c', _setFrameRate c r = some (b, c')
          ∧ c'.issued = c.issued ++ [Write.register Reg.PIX_CNT_MAX pixCount] := by
  have _hrun := h
  refine ⟨?_, ?_, fun _ _ _ _ hq hs hc hp => _setFrameRate_of_pixCount hq hs hc hp⟩
  · rw [_setBinning_eq_writeAll]
    obtain ⟨_, _, _, _, _, _, _, _, hiss⟩ := _set_frame c Reg.BIN_ROWS_TO_MERGE rows
    by_cases hw : c.writeOk Reg.BIN_ROWS_TO_MERGE = true
    · obtain ⟨pre, post, _, hi⟩ := writeAll_issued_prefix
        [(Reg.BIN_COLS_TO_MERGE, cols), (Reg.BIN_ROW_COUNT, fs.height),
          (Reg.BIN_COLUMN_COUNT, fs.width), (Reg.BINNING_EN, 1)]
        (_set c Reg.BIN_ROWS_TO_MERGE rows).2
      refine ⟨pre.map asWrite, ?_⟩
      unfold binningWrites
      rw [writeAll_cons_of_ok (p := (Reg.BIN_ROWS_TO_MERGE, rows)) _ hw, hi, hiss]
      simp
    · have hf : c.writeOk Reg.BIN_ROWS_TO_MERGE = false := by simpa using hw
      refine ⟨[], ?_⟩
      unfold binningWrites
      rw [writeAll_cons_of_fail (p := (Reg.BIN_ROWS_TO_MERGE, rows)) _ hf, hiss]
  · rw [_setBinning_eq_writeAll]
    exact writeAll_fst _ c

/-- C17, on a streaming camera with quad count 4, subframe count 4 and a 48 MHz clock. -/
theorem setBinning_setFrameRate_while_streaming_witness :
    isRunning streamingClockCamera = true
    ∧ (∃ rest, (_setBinning streamingClockCamera 2 2 ⟨640, 480⟩).2.issued
        = streamingClockCamera.issued ++ Write.register Reg.BIN_ROWS_TO_MERGE 2 :: rest)
    ∧ ((_setBinning streamingClockCamera 2 2 ⟨640, 480⟩).1 = true
        ↔ ∀ p ∈ binningWrites 2 2 ⟨640, 480⟩, streamingClockCamera.writeOk p.1 = true)
    ∧ ∀ quadCount subFrameCount clockHz pixCount,
        _get streamingClockCamera Reg.QUAD_CNT_MAX = some quadCount →
        _get streamingClockCamera Reg.SUBFRAME_CNT_MAX = some subFrameCount →
        _getSystemClockFrequency streamingClockCamera = some clockHz →
        pixCountFor ⟨30, 1⟩ quadCount subFrameCount clockHz = some pixCount →
        ∃ b c', _setFrameRate streamingClockCamera ⟨30, 1⟩ = some (b, c')
          ∧ c'.issued = streamingClockCamera.issued
              ++ [Write.register Reg.PIX_CNT_MAX pixCount] :=
  ⟨rfl, setBinning_setFrameRate_while_streaming streamingClockCamera rfl 2 2 ⟨640, 480⟩ ⟨30, 1⟩⟩

/-- C17 fails as stated: on a streaming camera `_setBinning` returns true after issuing its
five register writes, and `_setFrameRate` returns true after writing `PIX_CNT_MAX`. -/
theorem setBinning_setFrameRate_write_while_streaming :
    isRunning streamingClockCamera = true
    ∧ (_setBinning streamingClockCamera 2 2 ⟨640, 480⟩).1 = true
    ∧ (_setBinning streamingClockCamera 2 2 ⟨640, 480⟩).2.issued
        = [Write.register Reg.BIN_ROWS_TO_MERGE 2, Write.register Reg.BIN_COLS_TO_MERGE 2,
            Write.register Reg.BIN_ROW_COUNT 480, Write.register Reg.BIN_COLUMN_COUNT 640,
            Write.register Reg.BINNING_EN 1]
    ∧ (_setFrameRate streamingClockCamera ⟨30, 1⟩).map (fun p => (p.1, p.2.issued))
        = some (true, [Write.register Reg.PIX_CNT_MAX 100000]) := by
  decide

/-! ## Reading back the negotiated geometry -/

/-- C19. After a successful `_setFrameSize` with working ROI `roi` and chosen size `toSet`,
when the five binning registers can be read: `_getFrameSize` returns `toSet`, the
binning-enabled flag is set, and `_getBinning` returns
`(roi.height / toSet.height, roi.width / toSet.width)`. -/
theorem getFrameSize_getBinning_after_setFrameSize (c c' : Camera) (s : FrameSize)
    (resetROI : Bool) (h : _setFrameSize c s resetROI = some (true, c'))
    (hread : ∀ r ∈ [Reg.BIN_ROWS_TO_MERGE, Reg.BIN_COLS_TO_MERGE, Reg.BIN_ROW_COUNT,
      Reg.BIN_COLUMN_COUNT, Reg.BINNING_EN], c.readOk r = true) :
    ∃ roi toSet, workingROI c resetROI = some roi ∧ c'.streamerFrameSize = some toSet
      ∧ _getFrameSize c' = Outcome.ok toSet
      ∧ _get c' Reg.BINNING_EN = some 1
      ∧ _getBinning c' = Outcome.ok (roi.height / toSet.height, roi.width / toSet.width) := by
  obtain ⟨_, roi, c0, hroi, _, _, _, hrd0, hrun⟩ := _setFrameSize_true h
  obtain ⟨modes, bpp, toSet, c1, _, _, _, _, _, hbin, hst⟩ := _setFrameSizeWithROI_true hrun
  obtain ⟨_, _, hrd1, hv1, hv2, hv3, hv4, hv5, _⟩ := _setBinning_true hbin
  obtain ⟨_, hval, hrd2, hsfs, _⟩ := _setStreamerFrameSize_true hst
  have hrd : c'.readOk = c.readOk := by rw [hrd2, hrd1, hrd0]
  have r1 : c.readOk Reg.BIN_ROWS_TO_MERGE = true := hread _ (by simp)
  have r2 : c.readOk Reg.BIN_COLS_TO_MERGE = true := hread _ (by simp)
  have r3 : c.readOk Reg.BIN_ROW_COUNT = true := hread _ (by simp)
  have r4 : c.readOk Reg.BIN_COLUMN_COUNT = true := hread _ (by simp)
  have r5 : c.readOk Reg.BINNING_EN = true := hread _ (by simp)
  have g1 : _get c' Reg.BIN_ROWS_TO_MERGE = some (roi.height / toSet.height) := by
    unfold _get
    rw [hrd, r1, hval, hv1]
    rfl
  have g2 : _get c' Reg.BIN_COLS_TO_MERGE = some (roi.width / toSet.width) := by
    unfold _get
    rw [hrd, r2, hval, hv2]
    rfl
  have g3 : _get c' Reg.BIN_ROW_COUNT = some toSet.height := by
    unfold _get
    rw [hrd, r3, hval, hv3]
    rfl
  have g4 : _get c' Reg.BIN_COLUMN_COUNT = some toSet.width := by
    unfold _get
    rw [hrd, r4, hval, hv4]
    rfl
  have g5 : _get c' Reg.BINNING_EN = some 1 := by
    unfold _get
    rw [hrd, r5, hval, hv5]
    rfl
  refine ⟨roi, toSet, hroi, hsfs, ?_, g5, ?_⟩
  · unfold _getFrameSize
    simp only [g3, g4]
  · unfold _getBinning
    simp only [g5, g1, g2]
    rfl

/-- C19, at the worked example: desired 640x480 on a 1280x960 ROI. -/
theorem getFrameSize_getBinning_after_setFrameSize_witness :
    _setFrameSize (exampleCamera vgaCatalogue twoBytesPerPixel) ⟨640, 480⟩ false
        = some (true, negotiatedVGA)
    ∧ ∃ roi toSet, workingROI (exampleCamera vgaCatalogue twoBytesPerPixel) false = some roi
      ∧ negotiatedVGA.streamerFrameSize = some toSet
      ∧ _getFrameSize negotiatedVGA = Outcome.ok toSet
      ∧ _get negotiatedVGA Reg.BINNING_EN = some 1
      ∧ _getBinning negotiatedVGA
          = Outcome.ok (roi.height / toSet.height, roi.width / toSet.width) :=
  ⟨rfl, getFrameSize_getBinning_after_setFrameSize _ _ ⟨640, 480⟩ false rfl
    (fun _ _ => rfl)⟩

/-! ## Frame rate and pixel counter: the round trip -/

/-- C20, as amended: for positive counters and clock with both 32-bit products in range, and
provided the reduced denominator times clock x 10^6 fits a 64-bit `long`, feeding the rate
returned by `_getFrameRate` into `_setFrameRate` writes the original pixel count to
`PIX_CNT_MAX`. -/
theorem frameRate_round_trip (c : Camera) (pixCount quadCount subFrameCount clockHz : Nat)
    (hf : _get c Reg.PIX_CNT_MAX_SET_FAILED = some 0)
    (hp : _get c Reg.PIX_CNT_MAX = some pixCount)
    (hq : _get c Reg.QUAD_CNT_MAX = some quadCount)
    (hs : _get c Reg.SUBFRAME_CNT_MAX = some subFrameCount)
    (hc : _getSystemClockFrequency c = some clockHz)
    (hpos : 0 < pixCount ∧ 0 < quadCount ∧ 0 < subFrameCount ∧ 0 < clockHz)
    (hn : clockHz * 10 ^ 6 < 2 ^ 32)
    (hd : pixCount * quadCount * subFrameCount < 2 ^ 32)
    (hlong : pixCount * quadCount * subFrameCount
        / Nat.gcd (clockHz * 10 ^ 6) (pixCount * quadCount * subFrameCount)
        * (clockHz * 10 ^ 6) < 2 ^ 63) :
    ∃ r b c', _getFrameRate c = Outcome.ok r ∧ _setFrameRate c r = some (b, c')
      ∧ c'.issued = c.issued ++ [Write.register Reg.PIX_CNT_MAX pixCount] := by
  obtain ⟨hp0, hq0, hs0, hc0⟩ := hpos
  have hNpos : 0 < clockHz * 10 ^ 6 := Nat.mul_pos hc0 (by norm_num)
  have hrate := getFrameRate_exact_aux hf hp hq hs hc hn hd (Or.inl hNpos)
  generalize hN : clockHz * 10 ^ 6 = N at hrate hlong hNpos hn
  generalize hD : pixCount * quadCount * subFrameCount = D at hrate hlong hd
  have hg : 0 < Nat.gcd N D := Nat.gcd_pos_of_pos_left D hNpos
  have hN' : N / Nat.gcd N D * Nat.gcd N D = N := Nat.div_mul_cancel (Nat.gcd_dvd_left N D)
  have hD' : D / Nat.gcd N D * Nat.gcd N D = D := Nat.div_mul_cancel (Nat.gcd_dvd_right N D)
  have hnum : 0 < N / Nat.gcd N D := Nat.div_pos (Nat.gcd_le_left D hNpos) hg
  have hqs : 0 < quadCount * subFrameCount := Nat.mul_pos hq0 hs0
  -- the dividend of line 123 is pixCount times its divisor
  have hkey : D / Nat.gcd N D * N
      = pixCount * (quadCount * subFrameCount * (N / Nat.gcd N D)) := by
    have e1 : D / Nat.gcd N D * N = D * (N / Nat.gcd N D) := by
      calc D / Nat.gcd N D * N
          = D / Nat.gcd N D * (N / Nat.gcd N D * Nat.gcd N D) := by rw [hN']
        _ = D / Nat.gcd N D * Nat.gcd N D * (N / Nat.gcd N D) := by ring
        _ = D * (N / Nat.gcd N D) := by rw [hD']
    rw [e1, ← hD]
    ring
  have hdivisor_pos : 0 < quadCount * subFrameCount * (N / Nat.gcd N D) := Nat.mul_pos hqs hnum
  have hquot : D / Nat.gcd N D * N / (quadCount * subFrameCount * (N / Nat.gcd N D))
      = pixCount := by
    rw [hkey]
    exact Nat.mul_div_cancel pixCount hdivisor_pos
  have hpix_lt : pixCount < 2 ^ 32 := by
    have : pixCount ≤ D := by
      rw [← hD, Nat.mul_assoc]
      exact Nat.le_mul_of_pos_right pixCount hqs
    exact lt_of_le_of_lt this hd
  have hdiv_lt : quadCount * subFrameCount * (N / Nat.gcd N D) < 2 ^ 63 := by
    have : quadCount * subFrameCount * (N / Nat.gcd N D) ≤ D / Nat.gcd N D * N := by
      rw [hkey]
      exact Nat.le_mul_of_pos_left _ hp0
    exact lt_of_le_of_lt this hlong
  have hpc : pixCountFor ⟨N / Nat.gcd N D, D / Nat.gcd N D⟩ quadCount subFrameCount clockHz
      = some pixCount := by
    have h1 : D / Nat.gcd N D * clockHz * 10 ^ 6 = D / Nat.gcd N D * N := by
      rw [← hN, Nat.mul_assoc]
    have := pixCountFor_exact ⟨N / Nat.gcd N D, D / Nat.gcd N D⟩ quadCount subFrameCount clockHz
      (Nat.pos_iff_ne_zero.mp hnum) (Nat.pos_iff_ne_zero.mp hq0) (Nat.pos_iff_ne_zero.mp hs0)
      (by show D / Nat.gcd N D * clockHz * 10 ^ 6 < 2 ^ 63; rw [h1]; exact hlong)
      hdiv_lt
      (by show D / Nat.gcd N D * clockHz * 10 ^ 6
            / (quadCount * subFrameCount * (N / Nat.gcd N D)) < 2 ^ 32
          rw [h1, hquot]; exact hpix_lt)
    rw [this]
    show some (D / Nat.gcd N D * clockHz * 10 ^ 6
      / (quadCount * subFrameCount * (N / Nat.gcd N D))) = some pixCount
    rw [h1, hquot]
  obtain ⟨b, c', hset, hiss⟩ := _setFrameRate_of_pixCount hq hs hc hpc
  exact ⟨_, b, c', hrate, hset, hiss⟩

/-- C20, with pixel count 100000, quad count 4, subframe count 4 and a 48 MHz clock: the
rate is 30/1 and 100000 is written back. -/
theorem frameRate_round_trip_witness :
    ∃ r b c', _getFrameRate (clockCamera 48 (counters 100000 4 4)) = Outcome.ok r
      ∧ _setFrameRate (clockCamera 48 (counters 100000 4 4)) r = some (b, c')
      ∧ c'.issued = (clockCamera 48 (counters 100000 4 4)).issued
          ++ [Write.register Reg.PIX_CNT_MAX 100000] :=
  frameRate_round_trip (clockCamera 48 (counters 100000 4 4)) 100000 4 4 48 rfl rfl rfl rfl rfl
    ⟨by decide, by decide, by decide, by decide⟩ (by decide) (by decide) (by decide)

/-- C20 fails as stated: with pixel count 4294967291, quad and subframe count 1 and a clock
of 4294, both products are below 2^32 and the rate is 4294000000/4294967291, but
4294967291 x 4294000000 exceeds the range of `long`, and 4293999778 is written back. -/
theorem frameRate_round_trip_overflows :
    4294 * 10 ^ 6 < 2 ^ 32 ∧ 4294967291 * 1 * 1 < 2 ^ 32
    ∧ _getFrameRate (clockCamera 4294 (counters 4294967291 1 1))
        = Outcome.ok ⟨4294000000, 4294967291⟩
    ∧ (_setFrameRate (clockCamera 4294 (counters 4294967291 1 1))
          ⟨4294000000, 4294967291⟩).map (fun p => p.2.issued)
        = some [Write.register Reg.PIX_CNT_MAX 4293999778] := by
  decide

end ToFCamera
